/-
Verification of the SHACL → JSON Schema translator
(`scripts/lib/shacl_to_jsonschema.py` of Blue-Room-Innovation/dcasr-ontology).

The Python code is shallowly embedded: JSON documents are modelled as an
inductive `JVal` whose objects are insertion-ordered association lists (the
semantics of Python 3.7+ dicts, which `json.dump` serialises in key order);
RDF graphs are lists of triples read through rdflib-style accessors; the
mutable converter state (`self.warnings`, `self.definitions`, …) is passed
explicitly.  Loops that walk `rdf:rest` chains — which the Python code can
fail to exit — are given explicit fuel and return `none` when the fuel is
exhausted; points where the Python would raise (`int(...)`/`float(...)` on a
non-numeric lexical form, unbounded `sh:not` recursion) likewise return
`none`, so `some` results correspond exactly to runs of the Python that
terminate normally.
-/
import Mathlib

set_option autoImplicit false

namespace ShaclToJsonSchema

/-! ## JSON values

`pyfloat s` stands for the Python float `float(s)`: the claims under study
never compare floats numerically, so a float is kept as the lexical form it
was converted from. -/

inductive JVal where
  | str (s : String)
  | int (n : Int)
  | pyfloat (s : String)
  | bool (b : Bool)
  | null
  | arr (xs : List JVal)
  | obj (kvs : List (String × JVal))

/-- A Python `Dict[str, Any]`: insertion-ordered key/value pairs. -/
abbrev JObj := List (String × JVal)

/-- Python `d[k] = v`: replace in place when the key exists, else append. -/
def dictSet (d : JObj) (k : String) (v : JVal) : JObj :=
  match d with
  | [] => [(k, v)]
  | (k', v') :: rest =>
      if k' = k then (k', v) :: rest else (k', v') :: dictSet rest k v

/-- Python `d.get(k)`. -/
def dictGet (d : JObj) (k : String) : Option JVal :=
  match d with
  | [] => none
  | (k', v) :: rest => if k' = k then some v else dictGet rest k

/-- Python `k in d`. -/
def dictHas (d : JObj) (k : String) : Bool :=
  (dictGet d k).isSome

/-- Python `{k: v for k, v in d.items() if k != key}` (order preserving). -/
def dictDel (d : JObj) (k : String) : JObj :=
  d.filter (fun kv => kv.1 ≠ k)

/-! ## String helpers

Python string operations are modelled on the character list of a `String`
with structural recursion, so that concrete runs reduce inside the
kernel. -/

/-- Python `s.split(c)` for a one-character separator. -/
def splitOnChar (c : Char) : List Char → List (List Char)
  | [] => [[]]
  | x :: xs =>
      let r := splitOnChar c xs
      if x = c then [] :: r
      else
        match r with
        | [] => [[x]]
        | y :: ys => (x :: y) :: ys

/-- Digits of a natural number, most significant first (`fuel` bounds the
number of digits; `natLex` supplies enough). -/
def natDigits : Nat → Nat → List Char
  | 0, _ => []
  | fuel + 1, n =>
      if n < 10 then [Char.ofNat (48 + n)]
      else natDigits fuel (n / 10) ++ [Char.ofNat (48 + n % 10)]

/-- Decimal representation of a natural number. -/
def natLex (n : Nat) : String := ⟨natDigits (n + 1) n⟩

/-- Decimal representation of an integer (Python `str(int)`). -/
def intLex : Int → String
  | .ofNat n => natLex n
  | .negSucc m => "-" ++ natLex (m + 1)

/-- Accumulating decimal parser over characters. -/
def charsToNat : List Char → Nat → Option Nat
  | [], acc => some acc
  | c :: cs, acc =>
      if c.isDigit then charsToNat cs (acc * 10 + (c.toNat - 48)) else none

/-- Python `int(s)` on a stripped string: an optional sign followed by at
least one digit (`none` where Python raises `ValueError`). -/
def pyIntOfStr (s : String) : Option Int :=
  match s.data with
  | [] => none
  | '-' :: cs =>
      if cs.isEmpty then none else (charsToNat cs 0).map (fun n => -(n : Int))
  | '+' :: cs =>
      if cs.isEmpty then none else (charsToNat cs 0).map (fun n => (n : Int))
  | cs => (charsToNat cs 0).map (fun n => (n : Int))

/-- Python `s.lower()` (ASCII, which covers the `sh:closed` lexical
forms). -/
def strLower (s : String) : String := ⟨s.data.map Char.toLower⟩

/-- Dedup keeping the first occurrence of each element, as iterating an
insertion-ordered index does. -/
def dedupFirstAux {α : Type} [DecidableEq α] (seen : List α) : List α → List α
  | [] => []
  | x :: xs => if x ∈ seen then dedupFirstAux seen xs else x :: dedupFirstAux (x :: seen) xs

/-- First-occurrence deduplication. -/
def dedupFirst {α : Type} [DecidableEq α] (l : List α) : List α := dedupFirstAux [] l

/-! ## RDF model

Literals carry their rdflib `toPython()` value; the lexical form is
recovered by `RDFLit.lex` (lexical forms are taken as normalized, e.g. the
integer literal `1` has lexical form `"1"`).  `date`, `dateTime` and `time`
literals are carried as their ISO 8601 strings, `decimal` literals as their
lexical form. -/

inductive RDFLit where
  | str (s : String)
  | int (n : Int)
  | bool (b : Bool)
  | dec (lex : String)
  | flt (lex : String)
  | date (iso : String)
  | dateTime (iso : String)
  | time (iso : String)
  deriving DecidableEq, Repr

inductive RDFNode where
  | uri (s : String)
  | bnode (id : String)
  | lit (l : RDFLit)
  deriving DecidableEq, Repr

/-- Lexical form, as `str(literal)` returns it in rdflib. -/
def RDFLit.lex : RDFLit → String
  | .str s => s
  | .int n => intLex n
  | .bool b => if b then "true" else "false"
  | .dec s => s
  | .flt s => s
  | .date s => s
  | .dateTime s => s
  | .time s => s

/-- rdflib `Literal.__bool__`: `bool(self.value)` when the literal has a
parsed value (so `Literal(0)`, `Literal(False)` and `Literal("")` are
falsy). A decimal is falsy exactly when its value is zero; we approximate
by its lexical form consisting only of zeros, signs and dots, which agrees
on every well-formed decimal. -/
def RDFLit.truthy : RDFLit → Bool
  | .str s => s ≠ ""
  | .int n => n ≠ 0
  | .bool b => b
  | .dec s => ¬ (s.toList.all (fun c => c = '0' ∨ c = '.' ∨ c = '-' ∨ c = '+'))
  | .flt s => ¬ (s.toList.all (fun c => c = '0' ∨ c = '.' ∨ c = '-' ∨ c = '+' ∨ c = 'e' ∨ c = 'E'))
  | .date _ => true
  | .dateTime _ => true
  | .time _ => true

/-- Python truthiness of a node (`URIRef`/`BNode` are `str` subclasses). -/
def RDFNode.truthy : RDFNode → Bool
  | .uri s => s ≠ ""
  | .bnode s => s ≠ ""
  | .lit l => l.truthy

/-- `str(node)`. -/
def RDFNode.toStr : RDFNode → String
  | .uri s => s
  | .bnode s => s
  | .lit l => l.lex

/-- An RDF graph: its triples, in insertion (= parse) order. -/
abbrev Graph := List (RDFNode × RDFNode × RDFNode)

/-- rdflib `graph.objects(s, p)`: matching objects in store order, without
duplicates (the Memory store indexes triples in insertion-ordered dicts). -/
def graphObjects (g : Graph) (s p : RDFNode) : List RDFNode :=
  dedupFirst ((g.filter (fun t => t.1 = s ∧ t.2.1 = p)).map (fun t => t.2.2))

/-- rdflib `graph.value(s, p)`: the first matching object, if any. -/
def graphValue (g : Graph) (s p : RDFNode) : Option RDFNode :=
  (graphObjects g s p).head?

/-- rdflib `graph.subjects(p, o)`: matching subjects, without duplicates. -/
def graphSubjects (g : Graph) (p o : RDFNode) : List RDFNode :=
  dedupFirst ((g.filter (fun t => t.2.1 = p ∧ t.2.2 = o)).map (fun t => t.1))

/-! ## Vocabulary -/

def rdfNS : String := "http://www.w3.org/1999/02/22-rdf-syntax-ns#"
def shNS : String := "http://www.w3.org/ns/shacl#"
def xsdNS : String := "http://www.w3.org/2001/XMLSchema#"

def RDF.type : RDFNode := .uri (rdfNS ++ "type")
def RDF.first : RDFNode := .uri (rdfNS ++ "first")
def RDF.rest : RDFNode := .uri (rdfNS ++ "rest")
def RDF.nil : RDFNode := .uri (rdfNS ++ "nil")

def SH.NodeShape : RDFNode := .uri (shNS ++ "NodeShape")
def SH.targetClass : RDFNode := .uri (shNS ++ "targetClass")
def SH.property : RDFNode := .uri (shNS ++ "property")
def SH.path : RDFNode := .uri (shNS ++ "path")
def SH.name : RDFNode := .uri (shNS ++ "name")
def SH.description : RDFNode := .uri (shNS ++ "description")
def SH.message : RDFNode := .uri (shNS ++ "message")
def SH.datatype : RDFNode := .uri (shNS ++ "datatype")
def SH.classP : RDFNode := .uri (shNS ++ "class")
def SH.nodeKind : RDFNode := .uri (shNS ++ "nodeKind")
def SH.node : RDFNode := .uri (shNS ++ "node")
def SH.orP : RDFNode := .uri (shNS ++ "or")
def SH.andP : RDFNode := .uri (shNS ++ "and")
def SH.notP : RDFNode := .uri (shNS ++ "not")
def SH.xone : RDFNode := .uri (shNS ++ "xone")
def SH.sparql : RDFNode := .uri (shNS ++ "sparql")
def SH.hasValue : RDFNode := .uri (shNS ++ "hasValue")
def SH.inP : RDFNode := .uri (shNS ++ "in")
def SH.minCount : RDFNode := .uri (shNS ++ "minCount")
def SH.maxCount : RDFNode := .uri (shNS ++ "maxCount")
def SH.minInclusive : RDFNode := .uri (shNS ++ "minInclusive")
def SH.maxInclusive : RDFNode := .uri (shNS ++ "maxInclusive")
def SH.minExclusive : RDFNode := .uri (shNS ++ "minExclusive")
def SH.maxExclusive : RDFNode := .uri (shNS ++ "maxExclusive")
def SH.minLength : RDFNode := .uri (shNS ++ "minLength")
def SH.maxLength : RDFNode := .uri (shNS ++ "maxLength")
def SH.pattern : RDFNode := .uri (shNS ++ "pattern")
def SH.closed : RDFNode := .uri (shNS ++ "closed")
def SH.IRI : RDFNode := .uri (shNS ++ "IRI")
def SH.Literal : RDFNode := .uri (shNS ++ "Literal")
def SH.BlankNode : RDFNode := .uri (shNS ++ "BlankNode")
def SH.BlankNodeOrIRI : RDFNode := .uri (shNS ++ "BlankNodeOrIRI")
def SH.IRIOrLiteral : RDFNode := .uri (shNS ++ "IRIOrLiteral")
def SH.BlankNodeOrLiteral : RDFNode := .uri (shNS ++ "BlankNodeOrLiteral")

def XSD.string : RDFNode := .uri (xsdNS ++ "string")
def XSD.integer : RDFNode := .uri (xsdNS ++ "integer")
def XSD.int : RDFNode := .uri (xsdNS ++ "int")
def XSD.long : RDFNode := .uri (xsdNS ++ "long")
def XSD.short : RDFNode := .uri (xsdNS ++ "short")
def XSD.byte : RDFNode := .uri (xsdNS ++ "byte")
def XSD.decimal : RDFNode := .uri (xsdNS ++ "decimal")
def XSD.float : RDFNode := .uri (xsdNS ++ "float")
def XSD.double : RDFNode := .uri (xsdNS ++ "double")
def XSD.boolean : RDFNode := .uri (xsdNS ++ "boolean")
def XSD.date : RDFNode := .uri (xsdNS ++ "date")
def XSD.dateTime : RDFNode := .uri (xsdNS ++ "dateTime")
def XSD.time : RDFNode := .uri (xsdNS ++ "time")
def XSD.anyURI : RDFNode := .uri (xsdNS ++ "anyURI")

/-! ## Naming (`_get_local_name`, `_get_property_name`) -/

/-- `_get_local_name`: suffix after the last `#`, else after the last `/`,
else the whole string. -/
def getLocalName (s : String) : String :=
  if s.data.contains '#' then ⟨(splitOnChar '#' s.data).getLastD []⟩
  else if s.data.contains '/' then ⟨(splitOnChar '/' s.data).getLastD []⟩
  else s

/-- The three `--naming` strategies. -/
inductive Naming where
  | curie
  | localNames
  | contextTerms
  deriving DecidableEq, Repr

/-- First-match lookup in an association list (Python `dict.get` over a dict
whose insertion kept the first binding for each key). -/
def assocGet (m : List (String × String)) (k : String) : Option String :=
  match m with
  | [] => none
  | (k', v) :: rest => if k' = k then some v else assocGet rest k

/-- The converter's read-only environment: the graph, the naming strategy,
the graph's namespace bindings (in binding order, as
`graph.namespaces()` yields them), the inverse JSON-LD context table
(`self._iri_to_term`), and the class→shape index
(`self.class_to_shape_map`). -/
structure ConvEnv where
  graph : Graph
  naming : Naming
  namespaces : List (String × String)
  iriToTerm : List (String × String)
  classMap : List (String × String)

/-- `_get_property_name`. -/
def getPropertyName (env : ConvEnv) (path : RDFNode) : String :=
  let iri := path.toStr
  match env.naming with
  | .localNames => getLocalName iri
  | .contextTerms =>
      match assocGet env.iriToTerm iri with
      | some t => t
      | none => getLocalName iri
  | .curie =>
      let localName := getLocalName iri
      match env.namespaces.find? (fun pn => pn.2.data.isPrefixOf iri.data) with
      | some pn => pn.1 ++ ":" ++ localName
      | none => localName

/-- `_get_literal_value`: `str(value)` when `graph.value(s, p)` is truthy
(rdflib literal truthiness is value-based: `Literal(0)` is falsy). -/
def getLiteralValue (g : Graph) (s p : RDFNode) : Option String :=
  match graphValue g s p with
  | some v => if v.truthy then some v.toStr else none
  | none => none

/-- Python `if graph.value(s, p):` — the value when present and truthy. -/
def truthyValue (o : Option RDFNode) : Option RDFNode :=
  match o with
  | some v => if v.truthy then some v else none
  | none => none

/-! ## XSD mappings -/

/-- `self.xsd_to_json_type.get(datatype, "string")`. -/
def xsdToJsonType (dt : RDFNode) : String :=
  if dt = XSD.string then "string"
  else if dt = XSD.integer then "integer"
  else if dt = XSD.int then "integer"
  else if dt = XSD.long then "integer"
  else if dt = XSD.short then "integer"
  else if dt = XSD.byte then "integer"
  else if dt = XSD.decimal then "number"
  else if dt = XSD.float then "number"
  else if dt = XSD.double then "number"
  else if dt = XSD.boolean then "boolean"
  else if dt = XSD.date then "string"
  else if dt = XSD.dateTime then "string"
  else if dt = XSD.time then "string"
  else if dt = XSD.anyURI then "string"
  else "string"

/-- `self.xsd_to_json_format.get(datatype)`. -/
def xsdToJsonFormat (dt : RDFNode) : Option String :=
  if dt = XSD.dateTime then some "date-time"
  else if dt = XSD.date then some "date"
  else if dt = XSD.time then some "time"
  else if dt = XSD.anyURI then some "uri"
  else none

/-! ## RDF list walks (`_extract_list_values`, `_extract_list_nodes`)

The Python `while current != RDF.nil` loops carry no cycle or length guard.
They are modelled with explicit fuel counting loop iterations: a `none`
result means the loop is still running after `fuel` iterations, so the
real traversal diverges exactly when the result is `none` for every fuel. -/

/-- One member of an `sh:in` list, converted as `_extract_list_values`
converts it: IRIs to their string, literals to JSON-compatible values
(`Decimal` and float literals through `float(...)`, dates through
`isoformat()`); blank-node members match no `isinstance` arm and are
silently dropped (`none`). -/
def listValueToJson (n : RDFNode) : Option JVal :=
  match n with
  | .uri s => some (.str s)
  | .bnode _ => none
  | .lit l =>
      match l with
      | .str s => some (.str s)
      | .int n => some (.int n)
      | .bool b => some (.bool b)
      | .flt lex => some (.pyfloat lex)
      | .dec lex => some (.pyfloat lex)
      | .date iso => some (.str iso)
      | .dateTime iso => some (.str iso)
      | .time iso => some (.str iso)

/-- `_extract_list_values`, fuel-indexed. -/
def extractListValuesF (g : Graph) : Nat → RDFNode → Option (List JVal)
  | 0, current => if current = RDF.nil then some [] else none
  | fuel + 1, current =>
      if current = RDF.nil then some []
      else
        let vs := match graphValue g current RDF.first with
          | some f => (listValueToJson f).toList
          | none => []
        match graphValue g current RDF.rest with
        | some r =>
            if r.truthy then (extractListValuesF g fuel r).map (vs ++ ·)
            else some vs
        | none => some vs

/-- `_extract_list_nodes`, fuel-indexed. -/
def extractListNodesF (g : Graph) : Nat → RDFNode → Option (List RDFNode)
  | 0, current => if current = RDF.nil then some [] else none
  | fuel + 1, current =>
      if current = RDF.nil then some []
      else
        let vs := match graphValue g current RDF.first with
          | some f => [f]
          | none => []
        match graphValue g current RDF.rest with
        | some r =>
            if r.truthy then (extractListNodesF g fuel r).map (vs ++ ·)
            else some vs
        | none => some vs

/-! ## Node-kind and inline-constraint schemas -/

/-- `_jsonld_id_object_schema`. -/
def jsonldIdObjectSchema : JVal :=
  .obj [("type", .str "object"),
        ("properties", .obj [("@id", .obj [("type", .str "string"), ("format", .str "uri")])]),
        ("required", .arr [.str "@id"]),
        ("additionalProperties", .bool true)]

/-- `_nodekind_to_schema`. -/
def nodekindToSchema (nk : RDFNode) : JObj :=
  if nk = SH.IRI then
    [("anyOf", .arr [.obj [("type", .str "string"), ("format", .str "uri")],
                     jsonldIdObjectSchema])]
  else if nk = SH.Literal then [("type", .str "string")]
  else if nk = SH.BlankNode then [("type", .str "object")]
  else if nk = SH.BlankNodeOrIRI then
    [("anyOf", .arr [.obj [("type", .str "object")],
                     .obj [("type", .str "string"), ("format", .str "uri")],
                     jsonldIdObjectSchema])]
  else if nk = SH.IRIOrLiteral then
    [("anyOf", .arr [.obj [("type", .str "string"), ("format", .str "uri")],
                     jsonldIdObjectSchema,
                     .obj [("type", .str "string")]])]
  else if nk = SH.BlankNodeOrLiteral then
    [("anyOf", .arr [.obj [("type", .str "object")], .obj [("type", .str "string")]])]
  else [("$comment", .str ("Unsupported sh:nodeKind " ++ nk.toStr))]

/-- Python `d.update(upd)`. -/
def dictUpdate (d : JObj) (upd : JObj) : JObj :=
  upd.foldl (fun acc kv => dictSet acc kv.1 kv.2) d

/-- `_convert_inline_constraint_to_schema`. -/
def convertInlineConstraintToSchema (env : ConvEnv) (c : RDFNode) : JObj :=
  let g := env.graph
  match truthyValue (graphValue g c SH.datatype) with
  | some dt =>
      let base := [("type", JVal.str (xsdToJsonType dt))]
      (match xsdToJsonFormat dt with
       | some f => base ++ [("format", .str f)]
       | none => base)
  | none =>
  match truthyValue (graphValue g c SH.nodeKind) with
  | some nk => nodekindToSchema nk
  | none =>
  match truthyValue (graphValue g c SH.classP) with
  | some cr =>
      (match assocGet env.classMap cr.toStr with
       | some sn => [("$ref", .str ("#/$defs/" ++ sn))]
       | none => [("$comment", .str ("sh:class " ++ cr.toStr ++ " - no corresponding shape found"))])
  | none =>
  match truthyValue (graphValue g c SH.node) with
  | some ns => [("$ref", .str ("#/$defs/" ++ getLocalName ns.toStr))]
  | none => []

/-- `_is_informative_property_schema`. -/
def isInformativePropertySchema (v : JVal) : Bool :=
  match v with
  | .obj d =>
      ["type", "$ref", "anyOf", "oneOf", "allOf", "enum", "format", "minimum",
       "maximum", "exclusiveMinimum", "exclusiveMaximum", "pattern", "minLength",
       "maxLength"].any (fun k => dictHas d k)
  | _ => false

/-! ## `_convert_property_shape`, by stages

The Python function is one long block; it is split here into stage
functions, one per contiguous block of the source, composed in source
order by `convertPropertyShape`.  A stage returns `none` exactly when the
corresponding Python block would diverge (an unguarded RDF list walk that
never exits) or raise (an `int(...)`/`float(...)` call on a lexical form it
cannot parse), i.e. when the Python run produces no result. -/

/-- Lines 375-381: seed the property schema with `description`
(`sh:description`, else `sh:message`). -/
def descriptionInit (g : Graph) (ps : RDFNode) : JObj :=
  match getLiteralValue g ps SH.description with
  | some d => [("description", .str d)]
  | none =>
    match getLiteralValue g ps SH.message with
    | some m => [("description", .str m)]
    | none => []

/-- Lines 390-411: the `sh:hasValue` branch.  A blank-node value matches
neither `isinstance` arm and leaves the schema untouched. -/
def hasValueSchema (env : ConvEnv) (hv : RDFNode) (d0 : JObj) : JObj :=
  match hv with
  | .uri _ => dictSet (dictSet d0 "const" (.str (getPropertyName env hv))) "type" (.str "string")
  | .bnode _ => d0
  | .lit l =>
      match l with
      | .bool b => dictSet (dictSet d0 "const" (.bool b)) "type" (.str "boolean")
      | .int n => dictSet (dictSet d0 "const" (.int n)) "type" (.str "number")
      | .dec lex => dictSet (dictSet d0 "const" (.pyfloat lex)) "type" (.str "number")
      | .flt lex => dictSet (dictSet d0 "const" (.pyfloat lex)) "type" (.str "number")
      | .str s => dictSet (dictSet d0 "const" (.str s)) "type" (.str "string")
      | .date iso => dictSet (dictSet d0 "const" (.str iso)) "type" (.str "string")
      | .dateTime iso => dictSet (dictSet d0 "const" (.str iso)) "type" (.str "string")
      | .time iso => dictSet (dictSet d0 "const" (.str iso)) "type" (.str "string")

/-- Lines 383-474: the type-determination `if`/`elif` chain
(`sh:hasValue` > `sh:or` > `sh:datatype` > `sh:nodeKind` > `sh:node` >
`sh:class` > none).  Returns the updated schema and the warnings the
chain appends.  `sh:hasValue` is tested with `is not None`; the other
guards use Python truthiness of the fetched node. -/
def typeStage (env : ConvEnv) (fuel : Nat) (ps : RDFNode) (propName : String) (d0 : JObj) :
    Option (JObj × List String) :=
  let g := env.graph
  match graphValue g ps SH.hasValue with
  | some hv => some (hasValueSchema env hv d0, [])
  | none =>
  match truthyValue (graphValue g ps SH.orP) with
  | some orList =>
      (match extractListNodesF g fuel orList with
       | none => none
       | some altNodes =>
          let anyOf := altNodes.foldl (fun acc alt =>
            let s := convertInlineConstraintToSchema env alt
            if s.isEmpty then acc
            else match s with
              | [("anyOf", JVal.arr xs)] => acc ++ xs
              | _ => acc ++ [JVal.obj s]) []
          if anyOf.isEmpty then
            some (dictSet d0 "$comment" (.str "sh:or present but could not be converted"),
                  ["sh:or found in " ++ propName ++ " but no convertible alternatives were found"])
          else some (dictSet d0 "anyOf" (.arr anyOf), []))
  | none =>
  match truthyValue (graphValue g ps SH.datatype) with
  | some dt =>
      let d1 := dictSet d0 "type" (.str (xsdToJsonType dt))
      let d2 := match xsdToJsonFormat dt with
        | some f => dictSet d1 "format" (.str f)
        | none => d1
      some (d2, [])
  | none =>
  match truthyValue (graphValue g ps SH.nodeKind) with
  | some nk => some (dictUpdate d0 (nodekindToSchema nk), [])
  | none =>
  match truthyValue (graphValue g ps SH.node) with
  | some ns => some (dictSet d0 "$ref" (.str ("#/$defs/" ++ getLocalName ns.toStr)), [])
  | none =>
  match truthyValue (graphValue g ps SH.classP) with
  | some cr =>
      (match assocGet env.classMap cr.toStr with
       | some sn => some (dictSet d0 "$ref" (.str ("#/$defs/" ++ sn)), [])
       | none =>
          some (dictSet d0 "$comment"
                  (.str ("sh:class " ++ cr.toStr ++ " - no corresponding shape found")),
                ["No shape found with sh:targetClass " ++ cr.toStr ++ " for property " ++ propName]))
  | none => some (dictSet d0 "$comment" (.str "No explicit sh:datatype or sh:class found"), [])

/-- Lines 476-482: a `$ref` with a sibling `description` is rewritten to
`{"description": …, "allOf": [{"$ref": …}]}`. -/
def refRewriteStage (d : JObj) : JObj :=
  if dictHas d "$ref" && dictHas d "description" then
    match dictGet d "description", dictGet d "$ref" with
    | some desc, some ref => [("description", desc), ("allOf", .arr [.obj [("$ref", ref)]])]
    | _, _ => d
  else d

/-- Python `int(s)` on the string `_get_literal_value` produced; `none`
when `int()` would raise. -/
def parseCount : Option String → Option (Option Int)
  | none => some none
  | some s =>
      match pyIntOfStr s with
      | some n => some (some n)
      | none => none

/-- Lines 494-514: build the array wrapper `{"type": "array"}` with
`items` (the prior schema minus `description`) only when the prior schema
has a `type` or `$ref` key, then `description`, `minItems`, `maxItems`. -/
def arrayWrap (d : JObj) (mn : Option Int) (mx : Option Int) : JObj :=
  let base := [("type", JVal.str "array")]
  let base := if dictHas d "type" || dictHas d "$ref"
              then dictSet base "items" (.obj (dictDel d "description")) else base
  let base := match dictGet d "description" with
    | some desc => dictSet base "description" desc
    | none => base
  let base := match mn with
    | some n => dictSet base "minItems" (.int n)
    | none => base
  match mx with
  | some m => dictSet base "maxItems" (.int m)
  | none => base

/-- Lines 484-514: cardinality.  `minCount >= 1` makes the property
required; `maxCount > 1`, or else `minCount > 1`, wraps the schema into an
array (the `minCount > 1` arm never emits `maxItems`). -/
def cardinalityStage (g : Graph) (ps : RDFNode) (d : JObj) : Option (JObj × Bool) :=
  match parseCount (getLiteralValue g ps SH.minCount),
        parseCount (getLiteralValue g ps SH.maxCount) with
  | some mn, some mx =>
      let isReq := match mn with
        | some n => decide (1 ≤ n)
        | none => false
      let d' := match mx with
        | some m =>
            if 1 < m then arrayWrap d mn (some m)
            else match mn with
              | some n => if 1 < n then arrayWrap d (some n) none else d
              | none => d
        | none =>
            match mn with
            | some n => if 1 < n then arrayWrap d (some n) none else d
            | none => d
      some (d', isReq)
  | _, _ => none

/-- Python `v == s` for a JSON value against a string constant. -/
def JVal.isStr (v : JVal) (s : String) : Bool :=
  match v with
  | .str t => t = s
  | _ => false

/-- Python `prop_def.get("type") == "array"`. -/
def topIsArray (d : JObj) : Bool :=
  match dictGet d "type" with
  | some v => v.isStr "array"
  | none => false

/-- Python cross-type equality with `True` (`True == 1`).  Floats are kept
opaque, so float members are not identified with 0/1. -/
def pyIsTrueVal : JVal → Bool
  | .bool true => true
  | .int 1 => true
  | _ => false

/-- Python cross-type equality with `False` (`False == 0`). -/
def pyIsFalseVal : JVal → Bool
  | .bool false => true
  | .int 0 => true
  | _ => false

/-- Python `set(enum_values) == {True, False}`. -/
def pySetEqTrueFalse (vals : List JVal) : Bool :=
  vals.all (fun v => pyIsTrueVal v || pyIsFalseVal v) &&
  vals.any pyIsTrueVal && vals.any pyIsFalseVal

/-- Line 526: the redundant-boolean-enum test — the target's type is
`boolean` and the enumerated set equals `{True, False}` under Python set
equality. -/
def boolEnumRedundant (target : JObj) (vals : List JVal) : Bool :=
  (match dictGet target "type" with
   | some v => v.isStr "boolean"
   | none => false) && pySetEqTrueFalse vals

/-- Lines 524-529: add `enum` to the target schema unless the target type
is `boolean` and the enumerated set is exactly `{true, false}`. -/
def enumApply (target : JObj) (vals : List JVal) : JObj :=
  if boolEnumRedundant target vals
  then target
  else dictSet target "enum" (.arr vals)

/-- Lines 516-529: `sh:in` handling.  The enum lands on `items` when the
schema is an array with an `items` key, else on the schema itself. -/
def inStage (g : Graph) (fuel : Nat) (ps : RDFNode) (d : JObj) : Option JObj :=
  match graphObjects g ps SH.inP with
  | [] => some d
  | inv :: _ =>
      match extractListValuesF g fuel inv with
      | none => none
      | some enumValues =>
          if enumValues.isEmpty then some d
          else
            if topIsArray d && dictHas d "items" then
              match dictGet d "items" with
              | some (JVal.obj items) => some (dictSet d "items" (.obj (enumApply items enumValues)))
              | _ => none
            else some (enumApply d enumValues)

/-- Acceptance by Python `float(...)` of a lexical form, simplified to
"some digit, and only digits, signs, dots and exponent markers"
(whitespace, `inf` and `nan` forms are out of scope). -/
def isFloatLex (s : String) : Bool :=
  s.toList.any Char.isDigit &&
  s.toList.all (fun c => c.isDigit || c = '.' || c = '+' || c = '-' || c = 'e' || c = 'E')

/-- One numeric-bound line of 541-548: `target_def[key] = float(value)`
when the constraint is present (a lexical form `float()` rejects aborts
the run). -/
def setFloatKey (g : Graph) (ps : RDFNode) (key : String) (p : RDFNode) (t : JObj) :
    Option JObj :=
  match getLiteralValue g ps p with
  | some s => if isFloatLex s then some (dictSet t key (.pyfloat s)) else none
  | none => some t

/-- One length line of 555-558: `target_def[key] = int(value)` when the
constraint is present. -/
def setIntKey (g : Graph) (ps : RDFNode) (key : String) (p : RDFNode) (t : JObj) :
    Option JObj :=
  match getLiteralValue g ps p with
  | some s =>
      (match pyIntOfStr s with
       | some n => some (dictSet t key (.int n))
       | none => none)
  | none => some t

/-- Line 559-560: `if pattern: target_def["pattern"] = str(pattern)`. -/
def setPatternKey (g : Graph) (ps : RDFNode) (t : JObj) : Option JObj :=
  match getLiteralValue g ps SH.pattern with
  | some s => if s ≠ "" then some (dictSet t "pattern" (.str s)) else some t
  | none => some t

/-- Lines 531-560: numeric and string constraints, applied to the
(possibly array-item) target schema, in source order. -/
def boundsApply (g : Graph) (ps : RDFNode) (tgt : JObj) : Option JObj :=
  (setFloatKey g ps "minimum" SH.minInclusive tgt).bind
    (fun t => (setFloatKey g ps "maximum" SH.maxInclusive t).bind
      (fun t => (setFloatKey g ps "exclusiveMinimum" SH.minExclusive t).bind
        (fun t => (setFloatKey g ps "exclusiveMaximum" SH.maxExclusive t).bind
          (fun t => (setIntKey g ps "minLength" SH.minLength t).bind
            (fun t => (setIntKey g ps "maxLength" SH.maxLength t).bind
              (fun t => setPatternKey g ps t))))))

/-- Lines 531-560 continued: route the constraint block at the array-item
target when the schema is an array with `items`. -/
def boundsStage (g : Graph) (ps : RDFNode) (d : JObj) : Option JObj :=
  if topIsArray d && dictHas d "items" then
    match dictGet d "items" with
    | some (JVal.obj items) =>
        (match boundsApply g ps items with
         | some items' => some (dictSet d "items" (.obj items'))
         | none => none)
    | _ => none
  else boundsApply g ps d

/-- Lines 564-578: `sh:xone`, property-level `sh:and` and `sh:sparql` are
unconvertible — record warnings; `sh:sparql` also stamps a `$comment`
(the Python appends to any existing `$comment` and `strip()`s, which on the
comments this code produces is plain concatenation). -/
def unconvertibleStage (g : Graph) (ps : RDFNode) (propName : String) (d : JObj) :
    JObj × List String :=
  let w1 := if (graphObjects g ps SH.xone).isEmpty then []
            else ["sh:xone found in " ++ propName ++ " - partial conversion to oneOf"]
  let w2 := if (graphObjects g ps SH.andP).isEmpty then []
            else ["sh:and found in " ++ propName ++ " - partial conversion to allOf"]
  if (graphObjects g ps SH.sparql).isEmpty then (d, w1 ++ w2)
  else
    let existing := match dictGet d "$comment" with
      | some (JVal.str s) => s
      | _ => ""
    let newComment := if existing = ""
      then "Contains sh:sparql constraint not convertible to JSON Schema"
      else existing ++ " Contains sh:sparql constraint not convertible to JSON Schema"
    (dictSet d "$comment" (.str newComment),
     w1 ++ w2 ++ ["sh:sparql found in " ++ propName ++ " - CANNOT be converted to JSON Schema"])

/-- The result of `_convert_property_shape`: the chosen property name
(`none` when the shape has no `sh:path`), the property schema, the
required flag, and the warnings appended to `self.warnings`. -/
structure PropResult where
  name : Option String
  schema : JObj
  required : Bool
  warnings : List String

/-- `_convert_property_shape` (lines 365-580), stages composed in source
order. -/
def convertPropertyShape (env : ConvEnv) (fuel : Nat) (ps : RDFNode) : Option PropResult :=
  match truthyValue (graphValue env.graph ps SH.path) with
  | none => some ⟨none, [], false, ["Property shape without sh:path found: " ++ ps.toStr]⟩
  | some path =>
      let propName := getPropertyName env path
      let d0 := descriptionInit env.graph ps
      match typeStage env fuel ps propName d0 with
      | none => none
      | some (d1, w1) =>
          let d2 := refRewriteStage d1
          match cardinalityStage env.graph ps d2 with
          | none => none
          | some (d3, isReq) =>
              match inStage env.graph fuel ps d3 with
              | none => none
              | some d4 =>
                  match boundsStage env.graph ps d4 with
                  | none => none
                  | some d5 =>
                      let (d6, w2) := unconvertibleStage env.graph ps propName d5
                      some ⟨some propName, d6, isReq, w1 ++ w2⟩

/-! ## `_convert_node_shape` and node-level composition -/

/-- The informative-wins merge used for discovered properties (lines
234-236, 239-242, 271-277, 351-355): keep the existing schema unless it is
uninformative and the new one is informative. -/
def mergeInformative (d : JObj) (upd : JObj) : JObj :=
  upd.foldl (fun acc kv =>
    match dictGet acc kv.1 with
    | none => dictSet acc kv.1 kv.2
    | some existing =>
        if !(isInformativePropertySchema existing) && isInformativePropertySchema kv.2
        then dictSet acc kv.1 kv.2 else acc) d

/-- The `for prop_shape in graph.objects(…, SH.property)` loop shared by
`_convert_node_shape` (lines 215-220) and
`_convert_node_constraint_node_to_schema` (lines 332-338): accumulates the
properties map, the discovered-properties map, the required list and the
warnings.  The Python guard `if prop_name:` skips a shape whose name is
`None` (no `sh:path`) and also one whose resolved name is the empty
string, which is falsy in Python. -/
def propsLoop (env : ConvEnv) (fuel : Nat) :
    List RDFNode → JObj → JObj → List String → List String →
    Option (JObj × JObj × List String × List String)
  | [], props, disc, req, warnings => some (props, disc, req, warnings)
  | ps :: rest, props, disc, req, warnings =>
      match convertPropertyShape env fuel ps with
      | none => none
      | some r =>
          let warnings := warnings ++ r.warnings
          match r.name with
          | some n =>
              if n = "" then propsLoop env fuel rest props disc req warnings
              else
                propsLoop env fuel rest (dictSet props n (.obj r.schema)) (dictSet disc n (.obj r.schema))
                  (if r.required then req ++ [n] else req) warnings
          | none => propsLoop env fuel rest props disc req warnings

/-- `_convert_node_constraint_node_to_schema` (lines 317-363): inline
`sh:property` blocks plus recursive `sh:not` blocks.  Returns
`(schema, discovered_properties, warnings)`.  The fuel bounds the `sh:not`
recursion depth, which in Python is bounded only by the interpreter's
recursion limit (`none` = the Python raises `RecursionError`). -/
def convertNodeConstraintNode (env : ConvEnv) : Nat → RDFNode → Option (JObj × JObj × List String)
  | 0, _ => none
  | fuel + 1, node =>
      match propsLoop env fuel (graphObjects env.graph node SH.property) [] [] [] [] with
      | none => none
      | some (props, disc0, req, w0) =>
          let start : List JObj :=
            if props.isEmpty && req.isEmpty then []
            else
              let o := [("type", JVal.str "object")]
              let o := if props.isEmpty then o else o ++ [("properties", JVal.obj props)]
              let o := if req.isEmpty then o else o ++ [("required", JVal.arr (req.map JVal.str))]
              [o]
          match (graphObjects env.graph node SH.notP).mapM
                  (fun nn => convertNodeConstraintNode env fuel nn) with
          | none => none
          | some notResults =>
              let folded := notResults.foldl
                (fun (acc : JObj × List JObj × List String) r =>
                  let (disc, subs, ws) := acc
                  let (nestedSchema, nestedProps, nw) := r
                  let disc := mergeInformative disc nestedProps
                  let subs := if nestedSchema.isEmpty then subs
                              else subs ++ [[("not", JVal.obj nestedSchema)]]
                  (disc, subs, ws ++ nw)) (disc0, start, w0)
              match folded with
              | (disc, [], ws) => some ([], disc, ws)
              | (disc, [s], ws) => some (s, disc, ws)
              | (disc, subs, ws) => some ([("allOf", JVal.arr (subs.map JVal.obj))], disc, ws)

/-- Lines 222-247: node-level `sh:or` → `anyOf`; alternatives' discovered
properties are hoisted into the outer properties map with the
informative-wins rule.  Returns `(anyOf key slice, merged properties,
warnings)`. -/
def nodeOrPart (env : ConvEnv) (fuel : Nat) (shapeName : String) (props1 : JObj)
    (orListO : Option RDFNode) : Option (JObj × JObj × List String) :=
  match orListO with
  | none => some ([], props1, [])
  | some orList =>
      match extractListNodesF env.graph fuel orList with
      | none => none
      | some altNodes =>
          match altNodes.mapM (fun alt => convertNodeConstraintNode env fuel alt) with
          | none => none
          | some results =>
              let (anyOf, discovered, ws) := results.foldl
                (fun (acc : List JObj × JObj × List String) r =>
                  let (ao, disc, ws) := acc
                  let (altSchema, altProps, nw) := r
                  let ao := if altSchema.isEmpty then ao else ao ++ [altSchema]
                  let disc := mergeInformative disc altProps
                  (ao, disc, ws ++ nw)) ([], [], [])
              let props2 := mergeInformative props1 discovered
              if anyOf.isEmpty then
                some ([], props2,
                      ws ++ ["sh:or found in NodeShape " ++ shapeName ++
                             " but no convertible alternatives were found"])
              else some ([("anyOf", JVal.arr (anyOf.map JVal.obj))], props2, ws)

/-- Lines 255-286: node-level `sh:and` → `allOf`.  IRI members become
`$ref`s (self-references dropped); inline members are converted and their
discovered properties merged into the (aliased) properties map.  Returns
`(allOf key slice, merged properties, warnings)`. -/
def nodeAndPart (env : ConvEnv) (fuel : Nat) (shapeName : String) (props2 : JObj)
    (andListO : Option RDFNode) : Option (JObj × JObj × List String) :=
  match andListO with
  | none => some ([], props2, [])
  | some andList =>
      match extractListNodesF env.graph fuel andList with
      | none => none
      | some andNodes =>
          match andNodes.mapM (fun an =>
            match an with
            | RDFNode.uri _ => some (Sum.inl (getLocalName an.toStr))
            | _ => (convertNodeConstraintNode env fuel an).map Sum.inr) with
          | none => none
          | some items =>
              let (allOf, props3, ws) := items.foldl
                (fun (acc : List JVal × JObj × List String) it =>
                  let (ao, pr, ws) := acc
                  match it with
                  | Sum.inl refName =>
                      if refName = shapeName then (ao, pr, ws)
                      else (ao ++ [JVal.obj [("$ref", .str ("#/$defs/" ++ refName))]], pr, ws)
                  | Sum.inr (andSchema, andProps, nw) =>
                      let pr := mergeInformative pr andProps
                      let ao := if andSchema.isEmpty then ao
                                else ao ++ [JVal.obj andSchema]
                      (ao, pr, ws ++ nw)) ([], props2, [])
              if allOf.isEmpty then
                some ([], props3,
                      ws ++ ["sh:and found in NodeShape " ++ shapeName ++
                             " but no convertible members were found"])
              else some ([("allOf", JVal.arr allOf)], props3, ws)

/-- The result of `_convert_node_shape`: the definition key, the
definition object, and the warnings appended. -/
structure ShapeResult where
  name : String
  defn : JObj
  warnings : List String

/-- Lines 178-197: the definition header — `type`, the generation
`$comment`, the `title` (always the shape's local name), and a
`description` from `sh:description`, else `sh:name`, else absent. -/
def shapeHeader (g : Graph) (shape : RDFNode) (shapeName : String) : JObj :=
  let base : JObj :=
    [("type", .str "object"),
     ("$comment", .str ("Generated from SHACL shape " ++ shape.toStr)),
     ("title", .str shapeName)]
  match getLiteralValue g shape SH.description with
  | some d => base ++ [("description", .str d)]
  | none =>
      match getLiteralValue g shape SH.name with
      | some n => base ++ [("description", .str n)]
      | none => base

/-- Lines 203-213: the synthesized required `@type` property when the
shape has a truthy `sh:targetClass`. -/
def targetClassProps (g : Graph) (shape : RDFNode) : JObj × List String :=
  match truthyValue (graphValue g shape SH.targetClass) with
  | some tc =>
      let cn := getLocalName tc.toStr
      ([("@type", JVal.obj [("type", .str "string"), ("const", .str cn),
          ("description", .str ("Type identifier for " ++ cn))])], ["@type"])
  | none => ([], [])

/-- Lines 288-291: `sh:closed = true` (string-compared after lowering)
adds `additionalProperties: false`. -/
def closedPart (g : Graph) (shape : RDFNode) : JObj :=
  match getLiteralValue g shape SH.closed with
  | some s => if strLower s = "true" then [("additionalProperties", JVal.bool false)] else []
  | none => []

/-- `_convert_node_shape` (lines 173-293).  The definition's key order is
the Python insertion order: `type`, `$comment`, `title`, `description?`,
`anyOf?`, `properties?`, `required?`, `allOf?`, `additionalProperties?`.
Whether a `properties` key exists is decided before the `sh:and` handling
(line 249), but its value reflects the `sh:and` merges, because the Python
stores the mutable dict by reference. -/
def convertNodeShape (env : ConvEnv) (fuel : Nat) (shape : RDFNode) : Option ShapeResult :=
  let g := env.graph
  let shapeName := getLocalName shape.toStr
  let header := shapeHeader g shape shapeName
  let (props0, req0) := targetClassProps g shape
  match propsLoop env fuel (graphObjects g shape SH.property) props0 [] req0 [] with
  | none => none
  | some (props1, _, req1, w1) =>
      match nodeOrPart env fuel shapeName props1 (truthyValue (graphValue g shape SH.orP)) with
      | none => none
      | some (anyOfPart, props2, w2) =>
          let hadProps := !props2.isEmpty
          match nodeAndPart env fuel shapeName props2 (truthyValue (graphValue g shape SH.andP)) with
          | none => none
          | some (allOfPart, props3, w3) =>
              let defn := header ++ anyOfPart
                ++ (if hadProps then [("properties", JVal.obj props3)] else [])
                ++ (if req1.isEmpty then [] else [("required", JVal.arr (req1.map JVal.str))])
                ++ allOfPart ++ closedPart g shape
              some ⟨shapeName, defn, w1 ++ w2 ++ w3⟩

/-! ## Top level (`convert`, `_create_main_schema`) -/

/-- Replace-or-append for string association lists (Python dict
assignment). -/
def assocSet (m : List (String × String)) (k v : String) : List (String × String) :=
  match m with
  | [] => [(k, v)]
  | (k', v') :: rest =>
      if k' = k then (k', v) :: rest else (k', v') :: assocSet rest k v

/-- `_build_class_to_shape_map`. -/
def buildClassMap (g : Graph) (shapes : List RDFNode) : List (String × String) :=
  shapes.foldl (fun acc shape =>
    match truthyValue (graphValue g shape SH.targetClass) with
    | some tc => assocSet acc tc.toStr (getLocalName shape.toStr)
    | none => acc) []

/-- `_create_empty_schema`. -/
def emptySchema : JVal :=
  .obj [("$schema", .str "http://json-schema.org/draft-07/schema#"),
        ("title", .str "Empty Schema"),
        ("description", .str "No SHACL shapes found for conversion"),
        ("type", .str "object")]

/-- `_create_main_schema` (lines 137-171): header, `$defs`, and promotion
of the first definition to the document root. -/
def createMainSchema (definitions : JObj) : JVal :=
  let schema : JObj :=
    [("$schema", .str "http://json-schema.org/draft-07/schema#"),
     ("title", .str "Generated JSON Schema from SHACL"),
     ("description", .str "This schema was automatically generated from SHACL shapes. It provides structural validation only. For semantic validation, use the original SHACL shapes."),
     ("$comment", .str "Auto-generated by shacl-to-jsonschema.py - DO NOT EDIT MANUALLY"),
     ("$defs", .obj definitions)]
  match definitions with
  | [] => .obj schema
  | (_, firstShape) :: _ =>
      match firstShape with
      | .obj fs =>
          let schema := dictSet schema "type" ((dictGet fs "type").getD (.str "object"))
          let schema := dictSet schema "properties" ((dictGet fs "properties").getD (.obj []))
          let schema := dictSet schema "required" ((dictGet fs "required").getD (.arr []))
          let schema := match dictGet fs "additionalProperties" with
            | some v => dictSet schema "additionalProperties" v
            | none => schema
          let schema := ["allOf", "anyOf", "oneOf", "not"].foldl (fun acc k =>
            match dictGet fs k with
            | some v => dictSet acc k v
            | none => acc) schema
          let schema := match dictGet fs "title" with
            | some v => dictSet schema "title" v
            | none => schema
          let schema := match dictGet fs "description" with
            | some v => dictSet schema "description" v
            | none => schema
          .obj schema
      | _ => .obj schema

/-- The conversion inputs: the parsed graph with its namespace bindings,
the naming strategy, and the inverse context table (empty unless
`naming = contextTerms`). -/
structure ConvInput where
  graph : Graph
  naming : Naming
  namespaces : List (String × String)
  iriToTerm : List (String × String)

/-- The `for shape in node_shapes` loop of `convert` (lines 103-104)
together with `self.definitions[shape_name] = definition`. -/
def shapesLoop (env : ConvEnv) (fuel : Nat) :
    List RDFNode → JObj → List String → Option (JObj × List String)
  | [], defs, warnings => some (defs, warnings)
  | shape :: rest, defs, warnings =>
      match convertNodeShape env fuel shape with
      | none => none
      | some r => shapesLoop env fuel rest (dictSet defs r.name (.obj r.defn)) (warnings ++ r.warnings)

/-- `convert` (lines 87-117): the whole conversion, returning the output
document and the accumulated diagnostics. -/
def convert (inp : ConvInput) (fuel : Nat) : Option (JVal × List String) :=
  let g := inp.graph
  let nodeShapes := graphSubjects g RDF.type SH.NodeShape
  if nodeShapes.isEmpty then some (emptySchema, [])
  else
    let env : ConvEnv := ⟨g, inp.naming, inp.namespaces, inp.iriToTerm, buildClassMap g nodeShapes⟩
    match shapesLoop env fuel nodeShapes [] [] with
    | none => none
    | some (defs, warnings) => some (createMainSchema defs, warnings)

mutual

/-- A JSON serializer standing in for `json.dump`: like the Python output
it writes keys in dict insertion order, so two equal `JVal`s serialize to
byte-identical documents. -/
def serializeJVal : JVal → String
  | .str s => "\"" ++ s ++ "\""
  | .int n => toString n
  | .pyfloat s => s
  | .bool b => if b then "true" else "false"
  | .null => "null"
  | .arr xs => "[" ++ serializeArr xs ++ "]"
  | .obj kvs => "\x7b" ++ serializeObjItems kvs ++ "\x7d"

def serializeArr : List JVal → String
  | [] => ""
  | [x] => serializeJVal x
  | x :: xs => serializeJVal x ++ "," ++ serializeArr xs

def serializeObjItems : List (String × JVal) → String
  | [] => ""
  | [(k, v)] => "\"" ++ k ++ "\":" ++ serializeJVal v
  | (k, v) :: kvs => "\"" ++ k ++ "\":" ++ serializeJVal v ++ "," ++ serializeObjItems kvs

end

/-! ## Concrete test graphs -/

/-- A property shape node for concrete runs. -/
def psQty : RDFNode := .bnode "psQty"

/-- Its path IRI. -/
def exQty : RDFNode := .uri "http://example.org/qty"

/-- The C1 scenario: `sh:path ex:qty, sh:datatype xsd:integer,
sh:minCount 0, sh:maxCount 5`. -/
def gQty : Graph :=
  [(psQty, SH.path, exQty),
   (psQty, SH.datatype, XSD.integer),
   (psQty, SH.minCount, .lit (.int 0)),
   (psQty, SH.maxCount, .lit (.int 5))]

/-- Environment for `gQty` under local naming. -/
def envQty : ConvEnv := ⟨gQty, .localNames, [], [], []⟩

/-- Two distinct IRIs sharing the local name `code`. -/
def exCode1 : RDFNode := .uri "http://ex1.org/code"

/-- The second IRI with local name `code`. -/
def exCode2 : RDFNode := .uri "http://ex2.org/code"

/-- Property shape for `exCode1`. -/
def psCode1 : RDFNode := .bnode "psCode1"

/-- Property shape for `exCode2`. -/
def psCode2 : RDFNode := .bnode "psCode2"

/-- A node shape holding both colliding properties. -/
def shapeColl : RDFNode := .uri "http://example.org/ShapeA"

/-- Graph with two property shapes whose paths collide on the local name:
`ex1:code` is an `xsd:string`, `ex2:code` an `xsd:integer`. -/
def gColl : Graph :=
  [(shapeColl, RDF.type, SH.NodeShape),
   (shapeColl, SH.property, psCode1),
   (shapeColl, SH.property, psCode2),
   (psCode1, SH.path, exCode1),
   (psCode1, SH.datatype, XSD.string),
   (psCode2, SH.path, exCode2),
   (psCode2, SH.datatype, XSD.integer)]

/-- Environment for `gColl` under local naming. -/
def envColl : ConvEnv := ⟨gColl, .localNames, [], [], []⟩

/-- The claim's termination notion for the `_extract_list_values` loop:
some number of iterations finishes the walk. -/
def listWalkTerminates (g : Graph) (start : RDFNode) : Prop :=
  ∃ fuel, (extractListValuesF g fuel start).isSome

/-- First cell of the example lists. -/
def listA : RDFNode := .bnode "la"

/-- Second cell of the example lists. -/
def listB : RDFNode := .bnode "lb"

/-- A cyclic `rdf:rest` chain: `la → lb → la → …`. -/
def gCycle : Graph :=
  [(listA, RDF.first, .lit (.str "x")), (listA, RDF.rest, listB),
   (listB, RDF.first, .lit (.str "y")), (listB, RDF.rest, listA)]

/-- The Python loop's successor: the `rdf:rest` value when present and
truthy (otherwise the loop breaks). -/
def restStep (g : Graph) (c : RDFNode) : Option RDFNode :=
  match graphValue g c RDF.rest with
  | some r => if r.truthy then some r else none
  | none => none

/-- A finite rest-chain from a head through successive rest-successors to a
terminator (`rdf:nil`, or a node whose rest is absent or falsy). -/
def isRestChain (g : Graph) : List RDFNode → Bool
  | [] => false
  | [c] => decide (c = RDF.nil) || (restStep g c).isNone
  | c :: c' :: rest =>
      decide (c ≠ RDF.nil) && decide (restStep g c = some c') && isRestChain g (c' :: rest)

/-- A properly nil-terminated two-element list. -/
def gList2 : Graph :=
  [(listA, RDF.first, .lit (.str "x")), (listA, RDF.rest, listB),
   (listB, RDF.first, .lit (.str "y")), (listB, RDF.rest, RDF.nil)]

/-- The schema a constraint lands on: the `items` object when the
property was wrapped into an array with items, else the schema itself
(mirrors the `enum_target`/`target_def` selection at lines 522 and
537-539). -/
def schemaTarget (d : JObj) : JObj :=
  if topIsArray d && dictHas d "items" then
    match dictGet d "items" with
    | some (JVal.obj items) => items
    | _ => d
  else d

/-- Property shape with `sh:maxCount 2` and no type information. -/
def psMulti : RDFNode := .bnode "psMulti"

/-- Its path IRI. -/
def exMulti : RDFNode := .uri "http://example.org/multi"

/-- The C6 counterexample graph: `sh:path ex:multi, sh:maxCount 2` with no
`sh:datatype`/`sh:class`/`sh:nodeKind`/`sh:node`. -/
def gMulti : Graph :=
  [(psMulti, SH.path, exMulti),
   (psMulti, SH.maxCount, .lit (.int 2))]

/-- Environment for `gMulti`. -/
def envMulti : ConvEnv := ⟨gMulti, .localNames, [], [], []⟩

/-- Property shape carrying `sh:hasValue`. -/
def psHV : RDFNode := .bnode "psHV"

/-- Its path IRI. -/
def exHV : RDFNode := .uri "http://example.org/status"

/-- The C7 witness graph: `sh:path ex:status, sh:hasValue ex:Active`,
plus an `sh:datatype` that the `hasValue` branch must take precedence
over. -/
def gHV : Graph :=
  [(psHV, SH.path, exHV),
   (psHV, SH.hasValue, .uri "http://example.org/Active"),
   (psHV, SH.datatype, XSD.integer)]

/-- Environment for `gHV`. -/
def envHV : ConvEnv := ⟨gHV, .localNames, [], [], []⟩

/-- Property shape with a boolean datatype and `sh:in (true false)`. -/
def psBoolIn : RDFNode := .bnode "psBoolIn"

/-- Its path IRI. -/
def exBoolIn : RDFNode := .uri "http://example.org/flag"

/-- First cell of the `(true false)` list. -/
def cellB1 : RDFNode := .bnode "cellB1"

/-- Second cell of the `(true false)` list. -/
def cellB2 : RDFNode := .bnode "cellB2"

/-- The C8 witness graph: boolean property with `sh:in (true false)`. -/
def gBoolIn : Graph :=
  [(psBoolIn, SH.path, exBoolIn),
   (psBoolIn, SH.datatype, XSD.boolean),
   (psBoolIn, SH.inP, cellB1),
   (cellB1, RDF.first, .lit (.bool true)),
   (cellB1, RDF.rest, cellB2),
   (cellB2, RDF.first, .lit (.bool false)),
   (cellB2, RDF.rest, RDF.nil)]

/-- Environment for `gBoolIn`. -/
def envBoolIn : ConvEnv := ⟨gBoolIn, .localNames, [], [], []⟩

/-- Property shape carrying `sh:xone`, `sh:and` and `sh:sparql`. -/
def psUnconv : RDFNode := .bnode "psUnconv"

/-- Its path IRI. -/
def exUnconv : RDFNode := .uri "http://example.org/constrained"

/-- The C9 witness graph: a string property carrying `sh:xone`,
property-level `sh:and` and `sh:sparql` constraints. -/
def gUnconv : Graph :=
  [(psUnconv, SH.path, exUnconv),
   (psUnconv, SH.datatype, XSD.string),
   (psUnconv, SH.xone, .bnode "xoneList"),
   (psUnconv, SH.andP, .bnode "andList"),
   (psUnconv, SH.sparql, .bnode "sparqlNode")]

/-- Environment for `gUnconv`. -/
def envUnconv : ConvEnv := ⟨gUnconv, .localNames, [], [], []⟩

/-- A property shape with no `sh:path` at all. -/
def psNoPath : RDFNode := .bnode "psNoPath"

/-- A node shape holding a pathless property shape and a normal one. -/
def shapePathless : RDFNode := .uri "http://example.org/ShapeP"

/-- The C10 witness graph: `shapePathless` has one property shape without
`sh:path` and one ordinary string property. -/
def gPathless : Graph :=
  [(shapePathless, RDF.type, SH.NodeShape),
   (shapePathless, SH.property, psNoPath),
   (shapePathless, SH.property, psCode1),
   (psCode1, SH.path, exCode1),
   (psCode1, SH.datatype, XSD.string)]

/-- Environment for `gPathless`. -/
def envPathless : ConvEnv := ⟨gPathless, .localNames, [], [], []⟩

/-- A node shape with a required property, for the C5 witness. -/
def shapeReq : RDFNode := .uri "http://example.org/ShapeReq"

/-- Its property shape. -/
def psName : RDFNode := .bnode "psName"

/-- Its path IRI. -/
def exName : RDFNode := .uri "http://example.org/name"

/-- The C5 witness graph: one NodeShape with a string property of
`sh:minCount 1`. -/
def gReq : Graph :=
  [(shapeReq, RDF.type, SH.NodeShape),
   (shapeReq, SH.property, psName),
   (psName, SH.path, exName),
   (psName, SH.datatype, XSD.string),
   (psName, SH.minCount, .lit (.int 1))]

/-- Environment for `gReq`. -/
def envReq : ConvEnv := ⟨gReq, .localNames, [], [], []⟩

/-- The definition `gReq` converts to. -/
def shapeReqDefn : JObj :=
  [("type", .str "object"),
   ("$comment", .str "Generated from SHACL shape http://example.org/ShapeReq"),
   ("title", .str "ShapeReq"),
   ("properties", .obj [("name", .obj [("type", .str "string")])]),
   ("required", .arr [.str "name"])]

/-- The property result `gHV` converts to. -/
def prHV : PropResult :=
  ⟨some "status", [("const", .str "Active"), ("type", .str "string")], false, []⟩

/-- A NodeShape whose property path IRI ends in a slash, so its local name
is the empty string. -/
def shapeSlash : RDFNode := .uri "http://example.org/ShapeSlash"

/-- Its property shape. -/
def psSlash : RDFNode := .bnode "psSlash"

/-- A path IRI whose local name is empty (nothing after the final `/`). -/
def exSlash : RDFNode := .uri "http://ex.org/"

/-- A graph with a mandatory (`sh:minCount 1`) property whose resolved term
is the empty string. -/
def gSlash : Graph :=
  [(shapeSlash, RDF.type, SH.NodeShape),
   (shapeSlash, SH.property, psSlash),
   (psSlash, SH.path, exSlash),
   (psSlash, SH.datatype, XSD.string),
   (psSlash, SH.minCount, .lit (.int 1))]

/-- Environment for `gSlash` (local-name strategy). -/
def envSlash : ConvEnv := ⟨gSlash, .localNames, [], [], []⟩

/-! ## Supporting lemmas on dictionaries -/

lemma dictGet_dictSet_self (d : JObj) (k : String) (v : JVal) :
    dictGet (dictSet d k v) k = some v := by
  induction d with
  | nil => simp [dictSet, dictGet]
  | cons kv rest ih =>
      obtain ⟨k0, v0⟩ := kv
      by_cases h : k0 = k
      · simp [dictSet, dictGet, h]
      · simp [dictSet, dictGet, h, ih]

lemma dictGet_dictSet_ne (d : JObj) (k k' : String) (v : JVal) (h : k ≠ k') :
    dictGet (dictSet d k v) k' = dictGet d k' := by
  induction d with
  | nil => simp [dictSet, dictGet, h]
  | cons kv rest ih =>
      obtain ⟨k0, v0⟩ := kv
      by_cases h0 : k0 = k
      · subst h0; simp [dictSet, dictGet, h]
      · simp only [dictSet, dictGet, if_neg h0]
        by_cases h1 : k0 = k'
        · simp [h1]
        · simp [h1, ih]

lemma dictHas_dictSet_self (d : JObj) (k : String) (v : JVal) :
    dictHas (dictSet d k v) k = true := by
  simp [dictHas, dictGet_dictSet_self]

lemma dictHas_dictSet_ne (d : JObj) (k k' : String) (v : JVal) (h : k ≠ k') :
    dictHas (dictSet d k v) k' = dictHas d k' := by
  simp [dictHas, dictGet_dictSet_ne d k k' v h]

lemma dictGet_dictDel_ne (d : JObj) (k k' : String) (h : k ≠ k') :
    dictGet (dictDel d k) k' = dictGet d k' := by
  induction d with
  | nil => simp [dictDel, dictGet]
  | cons kv rest ih =>
      obtain ⟨k0, v0⟩ := kv
      by_cases h0 : k0 = k
      · subst h0
        have hdrop : dictDel ((k0, v0) :: rest) k0 = dictDel rest k0 := by
          simp [dictDel, List.filter_cons]
        rw [hdrop, ih]
        have hne : k0 = k' → False := fun hh => h hh
        simp only [dictGet]
        exact (if_neg hne).symm
      · have hkeep : dictDel ((k0, v0) :: rest) k = (k0, v0) :: dictDel rest k := by
          simp [dictDel, List.filter_cons, h0]
        rw [hkeep]
        by_cases h1 : k0 = k'
        · simp [dictGet, h1]
        · simp [dictGet, h1, ih]

lemma dictGet_append_of_keys_ne (l1 l2 : JObj) (k : String)
    (h : ∀ kv ∈ l1, kv.1 ≠ k) :
    dictGet (l1 ++ l2) k = dictGet l2 k := by
  induction l1 with
  | nil => simp
  | cons kv rest ih =>
      obtain ⟨k0, v0⟩ := kv
      have hk0 : k0 ≠ k := h (k0, v0) (List.mem_cons_self _ _)
      simp only [List.cons_append, dictGet, if_neg hk0]
      exact ih (fun kv hkv => h kv (List.mem_cons_of_mem _ hkv))

lemma dictSet_same (d : JObj) (k : String) (v : JVal) (h : dictGet d k = some v) :
    dictSet d k v = d := by
  induction d with
  | nil => simp [dictGet] at h
  | cons kv rest ih =>
      obtain ⟨k0, v0⟩ := kv
      by_cases h0 : k0 = k
      · subst h0
        simp [dictGet] at h
        simp [dictSet, h]
      · simp only [dictGet, if_neg h0] at h
        simp [dictSet, h0, ih h]

/-! ## Inversion lemmas for the converter stages -/

lemma cardinalityStage_required (g : Graph) (ps : RDFNode) (d d' : JObj) (req : Bool)
    (h : cardinalityStage g ps d = some (d', req))
    (s : String) (n : Int)
    (hs : getLiteralValue g ps SH.minCount = some s)
    (hn : pyIntOfStr s = some n) :
    req = decide (1 ≤ n) := by
  simp only [cardinalityStage, hs, parseCount, hn] at h
  split at h
  · rename_i mn mx heq1 heq2
    rw [show mn = some n from by injection heq1 with h'; exact h'.symm] at h
    simp only [Option.some.injEq, Prod.mk.injEq] at h
    exact h.2.symm
  · simp at h

lemma convertPropertyShape_name_required
    (env : ConvEnv) (fuel : Nat) (ps p : RDFNode) (pr : PropResult)
    (hconv : convertPropertyShape env fuel ps = some pr)
    (hpath : truthyValue (graphValue env.graph ps SH.path) = some p)
    (s : String) (n : Int)
    (hs : getLiteralValue env.graph ps SH.minCount = some s)
    (hn : pyIntOfStr s = some n) (h1 : 1 ≤ n) :
    pr.name = some (getPropertyName env p) ∧ pr.required = true := by
  simp only [convertPropertyShape, hpath] at hconv
  cases hts : typeStage env fuel ps (getPropertyName env p) (descriptionInit env.graph ps) with
  | none => simp [hts] at hconv
  | some tw =>
      obtain ⟨d1, w1⟩ := tw
      simp only [hts] at hconv
      cases hcs : cardinalityStage env.graph ps (refRewriteStage d1) with
      | none => simp [hcs] at hconv
      | some cr =>
          obtain ⟨d3, isReq⟩ := cr
          simp only [hcs] at hconv
          cases hin : inStage env.graph fuel ps d3 with
          | none => simp [hin] at hconv
          | some d4 =>
              simp only [hin] at hconv
              cases hbs : boundsStage env.graph ps d4 with
              | none => simp [hbs] at hconv
              | some d5 =>
                  simp only [hbs] at hconv
                  have hreq := cardinalityStage_required env.graph ps (refRewriteStage d1)
                    d3 isReq hcs s n hs hn
                  cases hconv
                  refine ⟨rfl, ?_⟩
                  simp only [hreq]
                  simpa using h1

lemma propsLoop_req_mono (env : ConvEnv) (fuel : Nat) :
    ∀ (l : List RDFNode) (props disc : JObj) (req w : List String)
      (out : JObj × JObj × List String × List String),
      propsLoop env fuel l props disc req w = some out →
      ∀ x ∈ req, x ∈ out.2.2.1 := by
  intro l
  induction l with
  | nil =>
      intro props disc req w out h x hx
      simp only [propsLoop, Option.some.injEq] at h
      rw [← h]
      exact hx
  | cons ps rest ih =>
      intro props disc req w out h x hx
      simp only [propsLoop] at h
      cases hc : convertPropertyShape env fuel ps with
      | none => simp [hc] at h
      | some r =>
          simp only [hc] at h
          cases hnm : r.name with
          | none =>
              simp only [hnm] at h
              exact ih _ _ _ _ _ h x hx
          | some nm =>
              simp only [hnm] at h
              by_cases he : nm = ""
              · rw [if_pos he] at h
                exact ih _ _ _ _ _ h x hx
              · rw [if_neg he] at h
                cases hb : r.required with
                | false =>
                    rw [if_neg (by simp [hb])] at h
                    exact ih _ _ _ _ _ h x hx
                | true =>
                    rw [if_pos hb] at h
                    exact ih _ _ _ _ _ h x (List.mem_append_left _ hx)

lemma propsLoop_mem_required (env : ConvEnv) (fuel : Nat) :
    ∀ (l1 : List RDFNode) (ps : RDFNode) (l2 : List RDFNode) (props disc : JObj)
      (req w : List String) (out : JObj × JObj × List String × List String),
      propsLoop env fuel (l1 ++ ps :: l2) props disc req w = some out →
      ∃ pr, convertPropertyShape env fuel ps = some pr ∧
        ∀ nm, pr.name = some nm → nm ≠ "" → pr.required = true → nm ∈ out.2.2.1 := by
  intro l1
  induction l1 with
  | nil =>
      intro ps l2 props disc req w out h
      simp only [List.nil_append, propsLoop] at h
      cases hc : convertPropertyShape env fuel ps with
      | none => simp [hc] at h
      | some r =>
          simp only [hc] at h
          refine ⟨r, rfl, ?_⟩
          intro nm hnm hne hreq
          simp only [hnm] at h
          rw [if_neg hne, if_pos hreq] at h
          exact propsLoop_req_mono env fuel _ _ _ _ _ _ h nm
            (List.mem_append_right _ (List.mem_singleton_self _))
  | cons q l1 ih =>
      intro ps l2 props disc req w out h
      simp only [List.cons_append, propsLoop] at h
      cases hc : convertPropertyShape env fuel q with
      | none => simp [hc] at h
      | some r =>
          simp only [hc] at h
          cases hnm : r.name with
          | none =>
              simp only [hnm] at h
              exact ih ps l2 _ _ _ _ _ h
          | some nm =>
              simp only [hnm] at h
              by_cases he : nm = ""
              · rw [if_pos he] at h
                exact ih ps l2 _ _ _ _ _ h
              · rw [if_neg he] at h
                exact ih ps l2 _ _ _ _ _ h

lemma nodeOrPart_keys (env : ConvEnv) (fuel : Nat) (sn : String) (props : JObj)
    (o : Option RDFNode) (out : JObj × JObj × List String)
    (h : nodeOrPart env fuel sn props o = some out) :
    out.1 = [] ∨ ∃ v, out.1 = [("anyOf", v)] := by
  unfold nodeOrPart at h
  repeat' split at h
  all_goals cases h
  all_goals first
    | (left; rfl)
    | (right; exact ⟨_, rfl⟩)

lemma nodeAndPart_keys (env : ConvEnv) (fuel : Nat) (sn : String) (props : JObj)
    (o : Option RDFNode) (out : JObj × JObj × List String)
    (h : nodeAndPart env fuel sn props o = some out) :
    out.1 = [] ∨ ∃ v, out.1 = [("allOf", v)] := by
  unfold nodeAndPart at h
  repeat' split at h
  all_goals cases h
  all_goals first
    | (left; rfl)
    | (right; exact ⟨_, rfl⟩)

lemma shapeHeader_keys (g : Graph) (shape : RDFNode) (sn : String) :
    ∀ kv ∈ shapeHeader g shape sn,
      kv.1 = "type" ∨ kv.1 = "$comment" ∨ kv.1 = "title" ∨ kv.1 = "description" := by
  intro kv hkv
  unfold shapeHeader at hkv
  cases hd : getLiteralValue g shape SH.description with
  | some d => rw [hd] at hkv; simp at hkv; rcases hkv with h | h | h | h <;> simp [h]
  | none =>
      rw [hd] at hkv
      cases hn : getLiteralValue g shape SH.name with
      | some n => rw [hn] at hkv; simp at hkv; rcases hkv with h | h | h | h <;> simp [h]
      | none => rw [hn] at hkv; simp at hkv; rcases hkv with h | h | h <;> simp [h]

lemma convertNodeShape_required_key
    (env : ConvEnv) (fuel : Nat) (shape : RDFNode) (r : ShapeResult)
    (hconv : convertNodeShape env fuel shape = some r)
    (nm : String)
    (hmem : ∀ props0 req0 out,
      targetClassProps env.graph shape = (props0, req0) →
      propsLoop env fuel (graphObjects env.graph shape SH.property) props0 [] req0 [] =
        some out → nm ∈ out.2.2.1) :
    ∃ reqVals : List JVal, dictGet r.defn "required" = some (.arr reqVals) ∧
      JVal.str nm ∈ reqVals := by
  simp only [convertNodeShape] at hconv
  rcases htc : targetClassProps env.graph shape with ⟨props0, req0⟩
  simp only [htc] at hconv
  cases hpl : propsLoop env fuel (graphObjects env.graph shape SH.property) props0 [] req0 []
    with
  | none => simp [hpl] at hconv
  | some plOut =>
      obtain ⟨props1, disc1, req1, w1⟩ := plOut
      simp only [hpl] at hconv
      have hnm : nm ∈ req1 := hmem props0 req0 (props1, disc1, req1, w1) htc hpl
      cases hop : nodeOrPart env fuel (getLocalName shape.toStr) props1
          (truthyValue (graphValue env.graph shape SH.orP)) with
      | none => simp [hop] at hconv
      | some orOut =>
          obtain ⟨anyOfPart, props2, w2⟩ := orOut
          simp only [hop] at hconv
          cases hap : nodeAndPart env fuel (getLocalName shape.toStr) props2
              (truthyValue (graphValue env.graph shape SH.andP)) with
          | none => simp [hap] at hconv
          | some andOut =>
              obtain ⟨allOfPart, props3, w3⟩ := andOut
              simp only [hap] at hconv
              cases hconv
              refine ⟨req1.map JVal.str, ?_, List.mem_map_of_mem _ hnm⟩
              have hne : req1.isEmpty = false := by
                cases req1 with
                | nil => cases hnm
                | cons a l => rfl
              simp only [hne, Bool.false_eq_true, if_false]
              have h1 : ∀ kv ∈ shapeHeader env.graph shape (getLocalName shape.toStr),
                  kv.1 ≠ "required" := by
                intro kv hkv
                rcases shapeHeader_keys env.graph shape (getLocalName shape.toStr) kv hkv with
                  h | h | h | h <;> simp [h]
              have h2 : ∀ kv ∈ anyOfPart, kv.1 ≠ "required" := by
                intro kv hkv
                rcases nodeOrPart_keys env fuel (getLocalName shape.toStr) props1
                    (truthyValue (graphValue env.graph shape SH.orP))
                    (anyOfPart, props2, w2) hop with h | ⟨v, h⟩ <;>
                  simp only at h <;> subst h
                · cases hkv
                · simp at hkv; subst hkv; simp
              have h3 : ∀ kv ∈ (if props2.isEmpty = false then
                    [("properties", JVal.obj props3)] else ([] : JObj)),
                  kv.1 ≠ "required" := by
                intro kv hkv
                by_cases hp : props2.isEmpty = false
                · rw [if_pos hp] at hkv
                  simp at hkv; subst hkv; simp
                · rw [if_neg hp] at hkv; cases hkv
              simp only [List.append_assoc]
              rw [dictGet_append_of_keys_ne _ _ _ h1]
              rw [dictGet_append_of_keys_ne _ _ _ h2]
              rw [dictGet_append_of_keys_ne _ _ _ ?hprops]
              case hprops =>
                intro kv hkv
                split at hkv
                · simp at hkv; subst hkv; simp
                · cases hkv
              simp [dictGet]

/-- C5 counterexample: the property shape `psSlash` has a truthy `sh:path`
(the IRI `http://ex.org/`) and `sh:minCount 1`, but its resolved term is
the empty string (nothing follows the final `/`), which is falsy in
Python — line 217's `if prop_name:` skips the property entirely, so the
generated definition has no `properties` and no `required` key at all,
and in particular the resolved term does not appear in `required`. -/
theorem minCount_empty_term_counterexample :
    truthyValue (graphValue gSlash psSlash SH.path) = some exSlash ∧
    getLiteralValue gSlash psSlash SH.minCount = some "1" ∧
    getPropertyName envSlash exSlash = "" ∧
    convertNodeShape envSlash 9 shapeSlash =
      some ⟨"ShapeSlash",
        [("type", .str "object"),
         ("$comment", .str "Generated from SHACL shape http://example.org/ShapeSlash"),
         ("title", .str "ShapeSlash")], []⟩ ∧
    dictGet [("type", JVal.str "object"),
        ("$comment", JVal.str "Generated from SHACL shape http://example.org/ShapeSlash"),
        ("title", JVal.str "ShapeSlash")] "required" = none :=
  ⟨rfl, rfl, rfl, rfl, rfl⟩

/-- C5 amended: for every `sh:property` of a NodeShape whose property shape
has a truthy `sh:path`, an `sh:minCount` literal parsing to an integer
`n ≥ 1`, and a nonempty resolved term, that term appears in the `required`
list of the shape's generated definition (whenever the conversion of the
shape completes).  A property whose resolved term is the empty string is
skipped entirely by line 217's truthiness test and never reaches
`required`. -/
theorem minCount_ge1_property_in_required
    (env : ConvEnv) (fuel : Nat) (shape : RDFNode) (r : ShapeResult)
    (hconv : convertNodeShape env fuel shape = some r)
    (ps : RDFNode) (hps : ps ∈ graphObjects env.graph shape SH.property)
    (p : RDFNode) (hpath : truthyValue (graphValue env.graph ps SH.path) = some p)
    (hne : getPropertyName env p ≠ "")
    (s : String) (n : Int)
    (hs : getLiteralValue env.graph ps SH.minCount = some s)
    (hn : pyIntOfStr s = some n) (h1 : 1 ≤ n) :
    ∃ reqVals : List JVal, dictGet r.defn "required" = some (.arr reqVals) ∧
      JVal.str (getPropertyName env p) ∈ reqVals := by
  refine convertNodeShape_required_key env fuel shape r hconv (getPropertyName env p) ?_
  intro props0 req0 out htc hpl
  obtain ⟨l1, l2, hsplit⟩ := List.append_of_mem hps
  rw [hsplit] at hpl
  obtain ⟨pr, hpr, hmem⟩ := propsLoop_mem_required env fuel l1 ps l2 _ _ _ _ _ hpl
  obtain ⟨hname, hreq⟩ :=
    convertPropertyShape_name_required env fuel ps p pr hpr hpath s n hs hn h1
  exact hmem _ hname hne hreq

/-- C5 witness: in the concrete graph `gReq` the term `name` lands in the
definition's `required` list. -/
theorem minCount_ge1_property_in_required_witness :
    ∃ reqVals : List JVal,
      dictGet (ShapeResult.mk "ShapeReq" shapeReqDefn []).defn "required" =
        some (.arr reqVals) ∧
      JVal.str (getPropertyName envReq exName) ∈ reqVals :=
  minCount_ge1_property_in_required envReq 9 shapeReq ⟨"ShapeReq", shapeReqDefn, []⟩
    (by rfl) psName (by decide) exName (by decide) (by decide) "1" 1 (by decide) (by decide)
    (by decide)

lemma arrayWrap_type (d : JObj) (mn mx : Option Int) :
    dictGet (arrayWrap d mn mx) "type" = some (.str "array") := by
  simp only [arrayWrap]
  repeat' split
  all_goals simp [dictGet_dictSet_ne, dictGet_dictSet_self, dictGet]

lemma arrayWrap_items_of (d : JObj) (mn mx : Option Int)
    (h : (dictHas d "type" || dictHas d "$ref") = true) :
    dictGet (arrayWrap d mn mx) "items" = some (.obj (dictDel d "description")) := by
  simp only [arrayWrap, h, if_true]
  repeat' split
  all_goals simp [dictGet_dictSet_ne, dictGet_dictSet_self, dictGet]

lemma arrayWrap_items_none (d : JObj) (mn mx : Option Int)
    (h : (dictHas d "type" || dictHas d "$ref") = false) :
    dictHas (arrayWrap d mn mx) "items" = false := by
  simp only [arrayWrap, h, Bool.false_eq_true, if_false]
  repeat' split
  all_goals simp [dictHas, dictGet_dictSet_ne, dictGet_dictSet_self, dictGet]

lemma arrayWrap_maxItems (d : JObj) (mn : Option Int) (m : Int) :
    dictGet (arrayWrap d mn (some m)) "maxItems" = some (.int m) := by
  simp only [arrayWrap]
  repeat' split
  all_goals simp [dictGet_dictSet_ne, dictGet_dictSet_self, dictGet]

lemma arrayWrap_minItems (d : JObj) (n : Int) (mx : Option Int) :
    dictGet (arrayWrap d (some n) mx) "minItems" = some (.int n) := by
  simp only [arrayWrap]
  repeat' split
  all_goals simp [dictGet_dictSet_ne, dictGet_dictSet_self, dictGet]

lemma arrayWrap_maxItems_none (d : JObj) (mn : Option Int) :
    dictGet (arrayWrap d mn none) "maxItems" = none := by
  simp only [arrayWrap]
  repeat' split
  all_goals simp [dictGet_dictSet_ne, dictGet_dictSet_self, dictGet]

/-- C6 counterexample: the property shape of `gMulti` has `sh:maxCount 2`
and a prior schema `{"$comment": "No explicit sh:datatype or sh:class
found"}`; the claim mandates `items` = that prior schema minus its
description, but the code only emits `items` when the prior schema has a
`type` or `$ref` key — here the result is exactly
`{"type": "array", "maxItems": 2}` with no `items` key, and the prior
`$comment` is silently dropped. -/
theorem maxCount_array_missing_items_counterexample :
    convertPropertyShape envMulti 9 psMulti =
      some ⟨some "multi", [("type", .str "array"), ("maxItems", .int 2)], false, []⟩ ∧
    dictHas [("type", JVal.str "array"), ("maxItems", JVal.int 2)] "items" = false ∧
    dictDel [("$comment", JVal.str "No explicit sh:datatype or sh:class found")]
      "description" ≠ [] :=
  ⟨rfl, rfl, by simp [dictDel]⟩

/-- C6 amended: whenever the cardinality stage fires — `sh:maxCount`
parsing to `m > 1`, or else (`sh:maxCount` absent/falsy or parsing to at
most 1) `sh:minCount` parsing to `n > 1` — the translated schema is the
array wrapper `arrayWrap` of the prior schema: its type is always `array`,
never scalar/object; in the `maxCount` arm `maxItems` is `m`, in the
`minCount`-only arm no `maxItems` key is emitted; `minItems` comes from
`minCount` whenever that is given and truthy; but `items` (the prior
schema minus its description) is emitted only when the prior schema
carries a `type` or `$ref` key — otherwise the wrapper has no `items` key
and the prior keywords are dropped. -/
theorem cardinality_gt1_array_wrap
    (g : Graph) (ps : RDFNode) (d d' : JObj) (req : Bool)
    (hconv : cardinalityStage g ps d = some (d', req))
    (mn mx : Option Int)
    (hmin : parseCount (getLiteralValue g ps SH.minCount) = some mn)
    (hmax : parseCount (getLiteralValue g ps SH.maxCount) = some mx)
    (hgt : (∃ m, mx = some m ∧ 1 < m) ∨
           ((∀ m, mx = some m → m ≤ 1) ∧ ∃ n, mn = some n ∧ 1 < n)) :
    ((∃ m, mx = some m ∧ 1 < m ∧ d' = arrayWrap d mn (some m) ∧
        dictGet d' "maxItems" = some (.int m)) ∨
     ((∀ m, mx = some m → m ≤ 1) ∧ ∃ n, mn = some n ∧ 1 < n ∧
        d' = arrayWrap d (some n) none ∧ dictGet d' "maxItems" = none)) ∧
    dictGet d' "type" = some (.str "array") ∧
    (∀ n, mn = some n → dictGet d' "minItems" = some (.int n)) ∧
    (if dictHas d "type" || dictHas d "$ref"
     then dictGet d' "items" = some (.obj (dictDel d "description"))
     else dictHas d' "items" = false) := by
  rcases hgt with ⟨m, hm, h2⟩ | ⟨hle, n, hn, h2⟩
  · subst hm
    simp only [cardinalityStage, hmin, hmax] at hconv
    rw [if_pos h2] at hconv
    simp only [Option.some.injEq, Prod.mk.injEq] at hconv
    obtain ⟨hd', -⟩ := hconv
    subst hd'
    refine ⟨Or.inl ⟨m, rfl, h2, rfl, arrayWrap_maxItems d mn m⟩,
      arrayWrap_type d mn (some m), ?_, ?_⟩
    · intro n hn
      subst hn
      exact arrayWrap_minItems d n (some m)
    · cases hc : (dictHas d "type" || dictHas d "$ref") with
      | true => rw [if_pos rfl]; exact arrayWrap_items_of d mn (some m) hc
      | false => rw [if_neg (by simp)]; exact arrayWrap_items_none d mn (some m) hc
  · subst hn
    have hd' : d' = arrayWrap d (some n) none := by
      cases mx with
      | none =>
          simp only [cardinalityStage, hmin, hmax] at hconv
          rw [if_pos h2] at hconv
          simp only [Option.some.injEq, Prod.mk.injEq] at hconv
          exact hconv.1.symm
      | some m =>
          have hm1 : ¬ (1 < m) := not_lt.mpr (hle m rfl)
          simp only [cardinalityStage, hmin, hmax] at hconv
          rw [if_neg hm1, if_pos h2] at hconv
          simp only [Option.some.injEq, Prod.mk.injEq] at hconv
          exact hconv.1.symm
    subst hd'
    refine ⟨Or.inr ⟨hle, n, rfl, h2, rfl, arrayWrap_maxItems_none d (some n)⟩,
      arrayWrap_type d (some n) none, ?_, ?_⟩
    · intro n' hn'
      injection hn' with h'
      subst h'
      exact arrayWrap_minItems d n none
    · cases hc : (dictHas d "type" || dictHas d "$ref") with
      | true => rw [if_pos rfl]; exact arrayWrap_items_of d (some n) none hc
      | false => rw [if_neg (by simp)]; exact arrayWrap_items_none d (some n) none hc

/-- C6 witness for the amended theorem: the `gQty` scenario
(`sh:datatype xsd:integer`, `sh:minCount 0` — dropped as falsy —
`sh:maxCount 5`, taking the `maxCount` arm). -/
theorem cardinality_gt1_array_wrap_witness :
    ((∃ m, (some 5 : Option Int) = some m ∧ 1 < m ∧
        ([("type", JVal.str "array"), ("items", JVal.obj [("type", JVal.str "integer")]),
          ("maxItems", JVal.int 5)] : JObj) =
          arrayWrap [("type", JVal.str "integer")] none (some m) ∧
        dictGet [("type", JVal.str "array"), ("items", JVal.obj [("type", JVal.str "integer")]),
          ("maxItems", JVal.int 5)] "maxItems" = some (.int m)) ∨
     ((∀ m, (some 5 : Option Int) = some m → m ≤ 1) ∧
      ∃ n, (none : Option Int) = some n ∧ 1 < n ∧
        ([("type", JVal.str "array"), ("items", JVal.obj [("type", JVal.str "integer")]),
          ("maxItems", JVal.int 5)] : JObj) =
          arrayWrap [("type", JVal.str "integer")] (some n) none ∧
        dictGet [("type", JVal.str "array"), ("items", JVal.obj [("type", JVal.str "integer")]),
          ("maxItems", JVal.int 5)] "maxItems" = none)) ∧
    dictGet [("type", JVal.str "array"), ("items", JVal.obj [("type", JVal.str "integer")]),
        ("maxItems", JVal.int 5)] "type" = some (.str "array") ∧
    (∀ n, (none : Option Int) = some n →
      dictGet [("type", JVal.str "array"), ("items", JVal.obj [("type", JVal.str "integer")]),
          ("maxItems", JVal.int 5)] "minItems" = some (.int n)) ∧
    (if dictHas [("type", JVal.str "integer")] "type" ||
        dictHas [("type", JVal.str "integer")] "$ref"
     then dictGet [("type", JVal.str "array"), ("items", JVal.obj [("type", JVal.str "integer")]),
            ("maxItems", JVal.int 5)] "items" =
          some (.obj (dictDel [("type", JVal.str "integer")] "description"))
     else dictHas [("type", JVal.str "array"), ("items", JVal.obj [("type", JVal.str "integer")]),
            ("maxItems", JVal.int 5)] "items" = false) :=
  cardinality_gt1_array_wrap gQty psQty [("type", JVal.str "integer")]
    [("type", JVal.str "array"), ("items", JVal.obj [("type", JVal.str "integer")]),
     ("maxItems", JVal.int 5)] false rfl none (some 5) rfl rfl
    (Or.inl ⟨5, rfl, by decide⟩)

lemma descriptionInit_no_ref (g : Graph) (ps : RDFNode) :
    dictHas (descriptionInit g ps) "$ref" = false := by
  unfold descriptionInit
  repeat' split
  all_goals rfl

lemma refRewriteStage_id (d : JObj) (h : dictHas d "$ref" = false) :
    refRewriteStage d = d := by
  unfold refRewriteStage
  rw [if_neg (by simp [h])]

lemma cardinalityStage_forms (g : Graph) (ps : RDFNode) (d d' : JObj) (req : Bool)
    (h : cardinalityStage g ps d = some (d', req)) :
    d' = d ∨ ∃ mn mx, d' = arrayWrap d mn mx := by
  unfold cardinalityStage at h
  repeat' split at h
  all_goals cases h
  all_goals first
    | (left; rfl)
    | (right; exact ⟨_, _, rfl⟩)

lemma topIsArray_of_array (d : JObj) (h : dictGet d "type" = some (.str "array")) :
    topIsArray d = true := by
  simp [topIsArray, h, JVal.isStr]

lemma topIsArray_of_ne (d : JObj) (tv : String) (h : dictGet d "type" = some (.str tv))
    (htv : tv ≠ "array") :
    topIsArray d = false := by
  simp [topIsArray, h, JVal.isStr, htv]

lemma enumApply_preserves (t : JObj) (vals : List JVal) (k : String) (hk : "enum" ≠ k) :
    dictGet (enumApply t vals) k = dictGet t k := by
  unfold enumApply
  split
  · rfl
  · exact dictGet_dictSet_ne t "enum" k _ hk

lemma setFloatKey_preserves (g : Graph) (ps : RDFNode) (key : String) (p : RDFNode)
    (t t' : JObj) (h : setFloatKey g ps key p t = some t') (k : String) (hk : key ≠ k) :
    dictGet t' k = dictGet t k := by
  unfold setFloatKey at h
  repeat' split at h
  all_goals cases h
  all_goals first
    | rfl
    | exact dictGet_dictSet_ne t key k _ hk

lemma setIntKey_preserves (g : Graph) (ps : RDFNode) (key : String) (p : RDFNode)
    (t t' : JObj) (h : setIntKey g ps key p t = some t') (k : String) (hk : key ≠ k) :
    dictGet t' k = dictGet t k := by
  unfold setIntKey at h
  repeat' split at h
  all_goals cases h
  all_goals first
    | rfl
    | exact dictGet_dictSet_ne t key k _ hk

lemma setPatternKey_preserves (g : Graph) (ps : RDFNode) (t t' : JObj)
    (h : setPatternKey g ps t = some t') (k : String) (hk : "pattern" ≠ k) :
    dictGet t' k = dictGet t k := by
  unfold setPatternKey at h
  repeat' split at h
  all_goals cases h
  all_goals first
    | rfl
    | exact dictGet_dictSet_ne t "pattern" k _ hk

lemma boundsApply_preserves (g : Graph) (ps : RDFNode) (t t' : JObj)
    (h : boundsApply g ps t = some t') (k : String)
    (h1 : "minimum" ≠ k) (h2 : "maximum" ≠ k) (h3 : "exclusiveMinimum" ≠ k)
    (h4 : "exclusiveMaximum" ≠ k) (h5 : "minLength" ≠ k) (h6 : "maxLength" ≠ k)
    (h7 : "pattern" ≠ k) :
    dictGet t' k = dictGet t k := by
  unfold boundsApply at h
  cases e1 : setFloatKey g ps "minimum" SH.minInclusive t with
  | none => rw [e1] at h; simp at h
  | some t1 =>
  rw [e1] at h; simp only [Option.some_bind] at h
  cases e2 : setFloatKey g ps "maximum" SH.maxInclusive t1 with
  | none => rw [e2] at h; simp at h
  | some t2 =>
  rw [e2] at h; simp only [Option.some_bind] at h
  cases e3 : setFloatKey g ps "exclusiveMinimum" SH.minExclusive t2 with
  | none => rw [e3] at h; simp at h
  | some t3 =>
  rw [e3] at h; simp only [Option.some_bind] at h
  cases e4 : setFloatKey g ps "exclusiveMaximum" SH.maxExclusive t3 with
  | none => rw [e4] at h; simp at h
  | some t4 =>
  rw [e4] at h; simp only [Option.some_bind] at h
  cases e5 : setIntKey g ps "minLength" SH.minLength t4 with
  | none => rw [e5] at h; simp at h
  | some t5 =>
  rw [e5] at h; simp only [Option.some_bind] at h
  cases e6 : setIntKey g ps "maxLength" SH.maxLength t5 with
  | none => rw [e6] at h; simp at h
  | some t6 =>
  rw [e6] at h; simp only [Option.some_bind] at h
  calc dictGet t' k = dictGet t6 k := setPatternKey_preserves g ps t6 t' h k h7
    _ = dictGet t5 k := setIntKey_preserves g ps _ _ t5 t6 e6 k h6
    _ = dictGet t4 k := setIntKey_preserves g ps _ _ t4 t5 e5 k h5
    _ = dictGet t3 k := setFloatKey_preserves g ps _ _ t3 t4 e4 k h4
    _ = dictGet t2 k := setFloatKey_preserves g ps _ _ t2 t3 e3 k h3
    _ = dictGet t1 k := setFloatKey_preserves g ps _ _ t1 t2 e2 k h2
    _ = dictGet t k := setFloatKey_preserves g ps _ _ t t1 e1 k h1

lemma cardinalityStage_preserves_target (g : Graph) (ps : RDFNode) (d d' : JObj)
    (req : Bool) (h : cardinalityStage g ps d = some (d', req)) (cv : JVal) (tv : String)
    (hty : dictGet d "type" = some (.str tv)) (hc : dictGet d "const" = some cv) :
    (dictGet d' "type" = some (.str "array") ∧
      ∃ it, dictGet d' "items" = some (.obj it) ∧
        dictGet it "const" = some cv ∧ dictGet it "type" = some (.str tv)) ∨
    (dictGet d' "type" = some (.str tv) ∧ dictGet d' "const" = some cv) := by
  rcases cardinalityStage_forms g ps d d' req h with rfl | ⟨mn, mx, rfl⟩
  · right; exact ⟨hty, hc⟩
  · left
    refine ⟨arrayWrap_type d mn mx, dictDel d "description", ?_, ?_, ?_⟩
    · exact arrayWrap_items_of d mn mx (by simp [dictHas, hty])
    · rw [dictGet_dictDel_ne d "description" "const" (by decide)]; exact hc
    · rw [dictGet_dictDel_ne d "description" "type" (by decide)]; exact hty

lemma inStage_preserves_target (g : Graph) (fuel : Nat) (ps : RDFNode) (d d' : JObj)
    (h : inStage g fuel ps d = some d') (cv : JVal) (tv : String) (htv : tv ≠ "array")
    (hQ : (dictGet d "type" = some (.str "array") ∧
            ∃ it, dictGet d "items" = some (.obj it) ∧
              dictGet it "const" = some cv ∧ dictGet it "type" = some (.str tv)) ∨
          (dictGet d "type" = some (.str tv) ∧ dictGet d "const" = some cv)) :
    (dictGet d' "type" = some (.str "array") ∧
      ∃ it, dictGet d' "items" = some (.obj it) ∧
        dictGet it "const" = some cv ∧ dictGet it "type" = some (.str tv)) ∨
    (dictGet d' "type" = some (.str tv) ∧ dictGet d' "const" = some cv) := by
  unfold inStage at h
  cases hobj : graphObjects g ps SH.inP with
  | nil => simp only [hobj] at h; cases h; exact hQ
  | cons inv tl =>
      simp only [hobj] at h
      cases hev : extractListValuesF g fuel inv with
      | none => simp [hev] at h
      | some vals =>
          simp only [hev] at h
          by_cases hemp : vals.isEmpty = true
          · rw [if_pos hemp] at h; cases h; exact hQ
          · rw [if_neg hemp] at h
            rcases hQ with ⟨hty, it, hit, hic, hitt⟩ | ⟨hty, hc⟩
            · rw [if_pos (by simp [topIsArray_of_array d hty, dictHas, hit])] at h
              simp only [hit] at h
              cases h
              left
              refine ⟨by rw [dictGet_dictSet_ne _ _ _ _ (by decide)]; exact hty,
                      enumApply it vals, dictGet_dictSet_self _ _ _, ?_, ?_⟩
              · rw [enumApply_preserves it vals "const" (by decide)]; exact hic
              · rw [enumApply_preserves it vals "type" (by decide)]; exact hitt
            · rw [if_neg (by simp [topIsArray_of_ne d tv hty htv])] at h
              cases h
              right
              refine ⟨?_, ?_⟩
              · rw [enumApply_preserves d vals "type" (by decide)]; exact hty
              · rw [enumApply_preserves d vals "const" (by decide)]; exact hc

lemma boundsStage_preserves_target (g : Graph) (ps : RDFNode) (d d' : JObj)
    (h : boundsStage g ps d = some d') (cv : JVal) (tv : String) (htv : tv ≠ "array")
    (hQ : (dictGet d "type" = some (.str "array") ∧
            ∃ it, dictGet d "items" = some (.obj it) ∧
              dictGet it "const" = some cv ∧ dictGet it "type" = some (.str tv)) ∨
          (dictGet d "type" = some (.str tv) ∧ dictGet d "const" = some cv)) :
    (dictGet d' "type" = some (.str "array") ∧
      ∃ it, dictGet d' "items" = some (.obj it) ∧
        dictGet it "const" = some cv ∧ dictGet it "type" = some (.str tv)) ∨
    (dictGet d' "type" = some (.str tv) ∧ dictGet d' "const" = some cv) := by
  unfold boundsStage at h
  rcases hQ with ⟨hty, it, hit, hic, hitt⟩ | ⟨hty, hc⟩
  · rw [if_pos (by simp [topIsArray_of_array d hty, dictHas, hit])] at h
    simp only [hit] at h
    cases hba : boundsApply g ps it with
    | none => simp [hba] at h
    | some it' =>
        simp only [hba] at h
        cases h
        left
        refine ⟨by rw [dictGet_dictSet_ne _ _ _ _ (by decide)]; exact hty,
                it', dictGet_dictSet_self _ _ _, ?_, ?_⟩
        · rw [boundsApply_preserves g ps it it' hba "const" (by decide) (by decide)
              (by decide) (by decide) (by decide) (by decide) (by decide)]
          exact hic
        · rw [boundsApply_preserves g ps it it' hba "type" (by decide) (by decide)
              (by decide) (by decide) (by decide) (by decide) (by decide)]
          exact hitt
  · rw [if_neg (by simp [topIsArray_of_ne d tv hty htv])] at h
    right
    refine ⟨?_, ?_⟩
    · rw [boundsApply_preserves g ps d d' h "type" (by decide) (by decide)
          (by decide) (by decide) (by decide) (by decide) (by decide)]
      exact hty
    · rw [boundsApply_preserves g ps d d' h "const" (by decide) (by decide)
          (by decide) (by decide) (by decide) (by decide) (by decide)]
      exact hc

lemma unconvertibleStage_schema_forms (g : Graph) (ps : RDFNode) (nm : String) (d : JObj) :
    (unconvertibleStage g ps nm d).1 = d ∨
      ∃ c, (unconvertibleStage g ps nm d).1 = dictSet d "$comment" (.str c) := by
  unfold unconvertibleStage
  repeat' split
  all_goals first
    | (left; rfl)
    | (right; exact ⟨_, rfl⟩)

lemma unconvertibleStage_preserves_target (g : Graph) (ps : RDFNode) (nm : String)
    (d : JObj) (cv : JVal) (tv : String)
    (hQ : (dictGet d "type" = some (.str "array") ∧
            ∃ it, dictGet d "items" = some (.obj it) ∧
              dictGet it "const" = some cv ∧ dictGet it "type" = some (.str tv)) ∨
          (dictGet d "type" = some (.str tv) ∧ dictGet d "const" = some cv)) :
    (dictGet (unconvertibleStage g ps nm d).1 "type" = some (.str "array") ∧
      ∃ it, dictGet (unconvertibleStage g ps nm d).1 "items" = some (.obj it) ∧
        dictGet it "const" = some cv ∧ dictGet it "type" = some (.str tv)) ∨
    (dictGet (unconvertibleStage g ps nm d).1 "type" = some (.str tv) ∧
      dictGet (unconvertibleStage g ps nm d).1 "const" = some cv) := by
  rcases unconvertibleStage_schema_forms g ps nm d with he | ⟨c, he⟩ <;> rw [he]
  · exact hQ
  · rcases hQ with ⟨hty, it, hit, hic, hitt⟩ | ⟨hty, hc⟩
    · left
      refine ⟨by rw [dictGet_dictSet_ne _ _ _ _ (by decide)]; exact hty,
              it, by rw [dictGet_dictSet_ne _ _ _ _ (by decide)]; exact hit, hic, hitt⟩
    · right
      refine ⟨?_, ?_⟩
      · rw [dictGet_dictSet_ne _ _ _ _ (by decide)]; exact hty
      · rw [dictGet_dictSet_ne _ _ _ _ (by decide)]; exact hc

lemma schemaTarget_of_Q (d : JObj) (cv : JVal) (tv : String) (htv : tv ≠ "array")
    (hQ : (dictGet d "type" = some (.str "array") ∧
            ∃ it, dictGet d "items" = some (.obj it) ∧
              dictGet it "const" = some cv ∧ dictGet it "type" = some (.str tv)) ∨
          (dictGet d "type" = some (.str tv) ∧ dictGet d "const" = some cv)) :
    dictGet (schemaTarget d) "const" = some cv ∧
    dictGet (schemaTarget d) "type" = some (.str tv) := by
  unfold schemaTarget
  rcases hQ with ⟨hty, it, hit, hic, hitt⟩ | ⟨hty, hc⟩
  · rw [if_pos (by simp [topIsArray_of_array d hty, dictHas, hit])]
    simp only [hit]
    exact ⟨hic, hitt⟩
  · rw [if_neg (by simp [topIsArray_of_ne d tv hty htv])]
    exact ⟨hc, hty⟩

lemma convertPropertyShape_hasValue_target
    (env : ConvEnv) (fuel : Nat) (ps p hv : RDFNode) (pr : PropResult)
    (cv : JVal) (tv : String)
    (hconv : convertPropertyShape env fuel ps = some pr)
    (hpath : truthyValue (graphValue env.graph ps SH.path) = some p)
    (hhv : graphValue env.graph ps SH.hasValue = some hv)
    (hct : dictGet (hasValueSchema env hv (descriptionInit env.graph ps)) "const" = some cv)
    (htt : dictGet (hasValueSchema env hv (descriptionInit env.graph ps)) "type" =
      some (.str tv))
    (href : dictHas (hasValueSchema env hv (descriptionInit env.graph ps)) "$ref" = false)
    (htv : tv ≠ "array") :
    dictGet (schemaTarget pr.schema) "const" = some cv ∧
    dictGet (schemaTarget pr.schema) "type" = some (.str tv) := by
  simp only [convertPropertyShape, hpath] at hconv
  have hts : typeStage env fuel ps (getPropertyName env p) (descriptionInit env.graph ps) =
      some (hasValueSchema env hv (descriptionInit env.graph ps), []) := by
    simp only [typeStage, hhv]
  simp only [hts] at hconv
  rw [refRewriteStage_id _ href] at hconv
  cases hcs : cardinalityStage env.graph ps
      (hasValueSchema env hv (descriptionInit env.graph ps)) with
  | none => simp [hcs] at hconv
  | some cr =>
      obtain ⟨d3, isReq⟩ := cr
      simp only [hcs] at hconv
      have hQ3 := cardinalityStage_preserves_target env.graph ps _ d3 isReq hcs cv tv htt hct
      cases hin : inStage env.graph fuel ps d3 with
      | none => simp [hin] at hconv
      | some d4 =>
          simp only [hin] at hconv
          have hQ4 := inStage_preserves_target env.graph fuel ps d3 d4 hin cv tv htv hQ3
          cases hbs : boundsStage env.graph ps d4 with
          | none => simp [hbs] at hconv
          | some d5 =>
              simp only [hbs] at hconv
              have hQ5 := boundsStage_preserves_target env.graph ps d4 d5 hbs cv tv htv hQ4
              have hQ6 := unconvertibleStage_preserves_target env.graph ps
                (getPropertyName env p) d5 cv tv hQ5
              cases hconv
              exact schemaTarget_of_Q _ cv tv htv hQ6

/-- C7: `sh:hasValue` takes precedence over every other type source (the
`elif` chain tests it first, so `sh:or`/`sh:datatype`/`sh:nodeKind`/
`sh:node`/`sh:class` are not even consulted): whenever the conversion of a
property shape with a truthy path succeeds, an IRI-valued `sh:hasValue`
puts `{"const": <resolved name>, "type": "string"}` on the (possibly
array-item) schema, and a boolean-literal `sh:hasValue` puts
`{"const": true|false, "type": "boolean"}` there. -/
theorem hasValue_const_precedence
    (env : ConvEnv) (fuel : Nat) (ps p : RDFNode) (pr : PropResult)
    (hconv : convertPropertyShape env fuel ps = some pr)
    (hpath : truthyValue (graphValue env.graph ps SH.path) = some p) :
    (∀ u, graphValue env.graph ps SH.hasValue = some (.uri u) →
      dictGet (schemaTarget pr.schema) "const" =
        some (.str (getPropertyName env (.uri u))) ∧
      dictGet (schemaTarget pr.schema) "type" = some (.str "string")) ∧
    (∀ b, graphValue env.graph ps SH.hasValue = some (.lit (.bool b)) →
      dictGet (schemaTarget pr.schema) "const" = some (.bool b) ∧
      dictGet (schemaTarget pr.schema) "type" = some (.str "boolean")) := by
  constructor
  · intro u hhv
    have hcs : hasValueSchema env (.uri u) (descriptionInit env.graph ps) =
        dictSet (dictSet (descriptionInit env.graph ps) "const"
          (.str (getPropertyName env (.uri u)))) "type" (.str "string") := rfl
    refine convertPropertyShape_hasValue_target env fuel ps p (.uri u) pr _ _
      hconv hpath hhv ?_ ?_ ?_ (by decide)
    · rw [hcs, dictGet_dictSet_ne _ _ _ _ (by decide), dictGet_dictSet_self]
    · rw [hcs, dictGet_dictSet_self]
    · rw [hcs, dictHas_dictSet_ne _ _ _ _ (by decide),
          dictHas_dictSet_ne _ _ _ _ (by decide)]
      exact descriptionInit_no_ref env.graph ps
  · intro b hhv
    have hcs : hasValueSchema env (.lit (.bool b)) (descriptionInit env.graph ps) =
        dictSet (dictSet (descriptionInit env.graph ps) "const" (.bool b))
          "type" (.str "boolean") := rfl
    refine convertPropertyShape_hasValue_target env fuel ps p (.lit (.bool b)) pr _ _
      hconv hpath hhv ?_ ?_ ?_ (by decide)
    · rw [hcs, dictGet_dictSet_ne _ _ _ _ (by decide), dictGet_dictSet_self]
    · rw [hcs, dictGet_dictSet_self]
    · rw [hcs, dictHas_dictSet_ne _ _ _ _ (by decide),
          dictHas_dictSet_ne _ _ _ _ (by decide)]
      exact descriptionInit_no_ref env.graph ps

/-- C7 witness: in `gHV` (which also carries an `sh:datatype` the
`hasValue` branch overrides) the schema is `{"const": "Active",
"type": "string"}`. -/
theorem hasValue_const_precedence_witness :
    dictGet (schemaTarget prHV.schema) "const" = some (.str "Active") ∧
    dictGet (schemaTarget prHV.schema) "type" = some (.str "string") :=
  (hasValue_const_precedence envHV 9 psHV exHV prHV rfl (by decide)).1
    "http://example.org/Active" (by decide)

/-- C8: with a non-empty `sh:in` list, when the enum target's type is
`boolean` and the enumerated set is exactly `{true, false}` (Python set
equality) no `enum` keyword is emitted and the schema is unchanged; any
other non-empty enumeration is placed as `enum` on the property schema
itself, or on its `items` schema when the property was wrapped into an
array with items. -/
theorem sh_in_enum_emission
    (g : Graph) (fuel : Nat) (ps : RDFNode) (d : JObj)
    (inv : RDFNode) (tl : List RDFNode) (vals : List JVal)
    (hin : graphObjects g ps SH.inP = inv :: tl)
    (hev : extractListValuesF g fuel inv = some vals)
    (hne : vals.isEmpty = false) :
    ((topIsArray d && dictHas d "items") = false →
      (boolEnumRedundant d vals = true → inStage g fuel ps d = some d) ∧
      (boolEnumRedundant d vals = false →
        inStage g fuel ps d = some (dictSet d "enum" (.arr vals)))) ∧
    (∀ it, dictGet d "items" = some (.obj it) → topIsArray d = true →
      (boolEnumRedundant it vals = true → inStage g fuel ps d = some d) ∧
      (boolEnumRedundant it vals = false →
        inStage g fuel ps d =
          some (dictSet d "items" (.obj (dictSet it "enum" (.arr vals)))))) := by
  constructor
  · intro hcond
    have hbase : inStage g fuel ps d = some (enumApply d vals) := by
      unfold inStage
      simp only [hin, hev, hne, Bool.false_eq_true, if_false]
      rw [if_neg (by simp [hcond])]
    constructor
    · intro hred
      rw [hbase]
      unfold enumApply
      rw [if_pos hred]
    · intro hred
      rw [hbase]
      unfold enumApply
      rw [if_neg (by simp [hred])]
  · intro it hit harr
    have hcond : (topIsArray d && dictHas d "items") = true := by
      simp [harr, dictHas, hit]
    have hbase : inStage g fuel ps d =
        some (dictSet d "items" (.obj (enumApply it vals))) := by
      unfold inStage
      simp only [hin, hev, hne, Bool.false_eq_true, if_false]
      rw [if_pos hcond]
      simp only [hit]
    constructor
    · intro hred
      rw [hbase]
      unfold enumApply
      rw [if_pos hred]
      rw [dictSet_same d "items" (.obj it) hit]
    · intro hred
      rw [hbase]
      unfold enumApply
      rw [if_neg (by simp [hred])]

/-- C8 witness: in `gBoolIn` (boolean datatype, `sh:in (true false)`) the
schema `{"type": "boolean"}` passes through `sh:in` handling unchanged —
no `enum` keyword. -/
theorem sh_in_enum_emission_witness :
    inStage gBoolIn 9 psBoolIn [("type", JVal.str "boolean")] =
      some [("type", JVal.str "boolean")] :=
  ((sh_in_enum_emission gBoolIn 9 psBoolIn [("type", JVal.str "boolean")] cellB1 []
      [.bool true, .bool false] (by decide) rfl rfl).1 rfl).1 rfl

lemma unconvertibleStage_spec (g : Graph) (ps : RDFNode) (nm : String) (d : JObj) :
    ((graphObjects g ps SH.xone).isEmpty = false →
      ("sh:xone found in " ++ nm ++ " - partial conversion to oneOf")
        ∈ (unconvertibleStage g ps nm d).2) ∧
    ((graphObjects g ps SH.andP).isEmpty = false →
      ("sh:and found in " ++ nm ++ " - partial conversion to allOf")
        ∈ (unconvertibleStage g ps nm d).2) ∧
    ((graphObjects g ps SH.sparql).isEmpty = false →
      ("sh:sparql found in " ++ nm ++ " - CANNOT be converted to JSON Schema")
        ∈ (unconvertibleStage g ps nm d).2 ∧
      ∃ c, dictGet (unconvertibleStage g ps nm d).1 "$comment" = some (.str c) ∧
        (c = "Contains sh:sparql constraint not convertible to JSON Schema" ∨
         ∃ pre, c = pre ++ " Contains sh:sparql constraint not convertible to JSON Schema")) := by
  have hw : (unconvertibleStage g ps nm d).2 =
      (if (graphObjects g ps SH.xone).isEmpty then [] else
        ["sh:xone found in " ++ nm ++ " - partial conversion to oneOf"]) ++
      (if (graphObjects g ps SH.andP).isEmpty then [] else
        ["sh:and found in " ++ nm ++ " - partial conversion to allOf"]) ++
      (if (graphObjects g ps SH.sparql).isEmpty then [] else
        ["sh:sparql found in " ++ nm ++ " - CANNOT be converted to JSON Schema"]) := by
    simp only [unconvertibleStage]
    by_cases hs : (graphObjects g ps SH.sparql).isEmpty = true
    · rw [if_pos hs]
      have hs2 : graphObjects g ps SH.sparql = [] := by simpa using hs
      simp [hs2]
    · rw [if_neg hs]
      have hs2 : ¬ graphObjects g ps SH.sparql = [] := by simpa using hs
      simp [hs2]
  refine ⟨?_, ?_, ?_⟩
  · intro hx
    rw [hw, if_neg (show ¬((graphObjects g ps SH.xone).isEmpty = true) by simp [hx])]
    simp
  · intro ha
    rw [hw, if_neg (show ¬((graphObjects g ps SH.andP).isEmpty = true) by simp [ha])]
    simp
  · intro hs
    constructor
    · rw [hw, if_neg (show ¬((graphObjects g ps SH.sparql).isEmpty = true) by simp [hs])]
      simp
    · simp only [unconvertibleStage]
      rw [if_neg (show ¬((graphObjects g ps SH.sparql).isEmpty = true) by simp [hs])]
      refine ⟨_, dictGet_dictSet_self _ _ _, ?_⟩
      by_cases he : (match dictGet d "$comment" with
        | some (JVal.str s) => s
        | _ => "") = ""
      · left; rw [if_pos he]
      · right
        exact ⟨_, by rw [if_neg he]⟩

/-- C9: whenever the conversion of a property shape with a truthy path
succeeds, each of `sh:xone`, property-level `sh:and` and `sh:sparql`
present on the shape records its warning in the diagnostics (the run
continues and still produces a schema), and `sh:sparql` additionally
stamps a `$comment` on the property schema ending in the
not-convertible flag. -/
theorem unconvertible_constructs_warn
    (env : ConvEnv) (fuel : Nat) (ps p : RDFNode) (pr : PropResult)
    (hconv : convertPropertyShape env fuel ps = some pr)
    (hpath : truthyValue (graphValue env.graph ps SH.path) = some p) :
    ((graphObjects env.graph ps SH.xone).isEmpty = false →
      ("sh:xone found in " ++ getPropertyName env p ++ " - partial conversion to oneOf")
        ∈ pr.warnings) ∧
    ((graphObjects env.graph ps SH.andP).isEmpty = false →
      ("sh:and found in " ++ getPropertyName env p ++ " - partial conversion to allOf")
        ∈ pr.warnings) ∧
    ((graphObjects env.graph ps SH.sparql).isEmpty = false →
      ("sh:sparql found in " ++ getPropertyName env p ++
        " - CANNOT be converted to JSON Schema") ∈ pr.warnings ∧
      ∃ c, dictGet pr.schema "$comment" = some (.str c) ∧
        (c = "Contains sh:sparql constraint not convertible to JSON Schema" ∨
         ∃ pre, c = pre ++ " Contains sh:sparql constraint not convertible to JSON Schema")) := by
  simp only [convertPropertyShape, hpath] at hconv
  cases hts : typeStage env fuel ps (getPropertyName env p) (descriptionInit env.graph ps) with
  | none => simp [hts] at hconv
  | some tw =>
      obtain ⟨d1, w1⟩ := tw
      simp only [hts] at hconv
      cases hcs : cardinalityStage env.graph ps (refRewriteStage d1) with
      | none => simp [hcs] at hconv
      | some cr =>
          obtain ⟨d3, isReq⟩ := cr
          simp only [hcs] at hconv
          cases hin : inStage env.graph fuel ps d3 with
          | none => simp [hin] at hconv
          | some d4 =>
              simp only [hin] at hconv
              cases hbs : boundsStage env.graph ps d4 with
              | none => simp [hbs] at hconv
              | some d5 =>
                  simp only [hbs] at hconv
                  cases hconv
                  obtain ⟨hx, ha, hsp⟩ :=
                    unconvertibleStage_spec env.graph ps (getPropertyName env p) d5
                  refine ⟨fun h => List.mem_append_right _ (hx h),
                          fun h => List.mem_append_right _ (ha h),
                          fun h => ⟨List.mem_append_right _ (hsp h).1, (hsp h).2⟩⟩

/-- C9 witness: in `gUnconv` all three constructs are present; the three
warnings are recorded and the `$comment` flag is stamped. -/
theorem unconvertible_constructs_warn_witness :
    ((graphObjects gUnconv psUnconv SH.xone).isEmpty = false →
      ("sh:xone found in " ++ getPropertyName envUnconv exUnconv ++
        " - partial conversion to oneOf") ∈
        (PropResult.mk (some "constrained")
          [("type", .str "string"),
           ("$comment", .str "Contains sh:sparql constraint not convertible to JSON Schema")]
          false
          ["sh:xone found in constrained - partial conversion to oneOf",
           "sh:and found in constrained - partial conversion to allOf",
           "sh:sparql found in constrained - CANNOT be converted to JSON Schema"]).warnings) ∧
    ((graphObjects gUnconv psUnconv SH.andP).isEmpty = false →
      ("sh:and found in " ++ getPropertyName envUnconv exUnconv ++
        " - partial conversion to allOf") ∈
        (PropResult.mk (some "constrained")
          [("type", .str "string"),
           ("$comment", .str "Contains sh:sparql constraint not convertible to JSON Schema")]
          false
          ["sh:xone found in constrained - partial conversion to oneOf",
           "sh:and found in constrained - partial conversion to allOf",
           "sh:sparql found in constrained - CANNOT be converted to JSON Schema"]).warnings) ∧
    ((graphObjects gUnconv psUnconv SH.sparql).isEmpty = false →
      ("sh:sparql found in " ++ getPropertyName envUnconv exUnconv ++
        " - CANNOT be converted to JSON Schema") ∈
        (PropResult.mk (some "constrained")
          [("type", .str "string"),
           ("$comment", .str "Contains sh:sparql constraint not convertible to JSON Schema")]
          false
          ["sh:xone found in constrained - partial conversion to oneOf",
           "sh:and found in constrained - partial conversion to allOf",
           "sh:sparql found in constrained - CANNOT be converted to JSON Schema"]).warnings ∧
      ∃ c, dictGet (PropResult.mk (some "constrained")
          [("type", .str "string"),
           ("$comment", .str "Contains sh:sparql constraint not convertible to JSON Schema")]
          false
          ["sh:xone found in constrained - partial conversion to oneOf",
           "sh:and found in constrained - partial conversion to allOf",
           "sh:sparql found in constrained - CANNOT be converted to JSON Schema"]).schema
            "$comment" = some (.str c) ∧
        (c = "Contains sh:sparql constraint not convertible to JSON Schema" ∨
         ∃ pre, c = pre ++ " Contains sh:sparql constraint not convertible to JSON Schema")) :=
  unconvertible_constructs_warn envUnconv 9 psUnconv exUnconv
    (PropResult.mk (some "constrained")
      [("type", .str "string"),
       ("$comment", .str "Contains sh:sparql constraint not convertible to JSON Schema")]
      false
      ["sh:xone found in constrained - partial conversion to oneOf",
       "sh:and found in constrained - partial conversion to allOf",
       "sh:sparql found in constrained - CANNOT be converted to JSON Schema"])
    rfl (by decide)

lemma propsLoop_warnings_factor (env : ConvEnv) (fuel : Nat) :
    ∀ (l : List RDFNode) (props disc : JObj) (req w : List String),
      propsLoop env fuel l props disc req w =
        (propsLoop env fuel l props disc req []).map
          (fun o => (o.1, o.2.1, o.2.2.1, w ++ o.2.2.2)) := by
  intro l
  induction l with
  | nil => intro props disc req w; simp [propsLoop]
  | cons ps rest ih =>
      intro props disc req w
      simp only [propsLoop]
      cases hc : convertPropertyShape env fuel ps with
      | none => simp
      | some r =>
          simp only
          cases hnm : r.name with
          | none =>
              dsimp only
              rw [ih props disc req (w ++ r.warnings),
                  ih props disc req ([] ++ r.warnings)]
              cases propsLoop env fuel rest props disc req [] with
              | none => rfl
              | some o => simp [List.append_assoc]
          | some nm =>
              dsimp only
              by_cases he : nm = ""
              · rw [if_pos he, if_pos he,
                    ih props disc req (w ++ r.warnings),
                    ih props disc req ([] ++ r.warnings)]
                cases propsLoop env fuel rest props disc req [] with
                | none => rfl
                | some o => simp [List.append_assoc]
              · rw [if_neg he, if_neg he,
                    ih (dictSet props nm (.obj r.schema)) (dictSet disc nm (.obj r.schema))
                      (if r.required then req ++ [nm] else req) (w ++ r.warnings),
                    ih (dictSet props nm (.obj r.schema)) (dictSet disc nm (.obj r.schema))
                      (if r.required then req ++ [nm] else req) ([] ++ r.warnings)]
                cases propsLoop env fuel rest (dictSet props nm (.obj r.schema))
                    (dictSet disc nm (.obj r.schema))
                    (if r.required then req ++ [nm] else req) [] with
                | none => rfl
                | some o => simp [List.append_assoc]

lemma propsLoop_skip_pathless (env : ConvEnv) (fuel : Nat) (ps : RDFNode)
    (hnp : truthyValue (graphValue env.graph ps SH.path) = none) :
    ∀ (l1 l2 : List RDFNode) (props disc : JObj) (req w : List String)
      (out : JObj × JObj × List String × List String),
      propsLoop env fuel (l1 ++ ps :: l2) props disc req w = some out →
      ∃ out', propsLoop env fuel (l1 ++ l2) props disc req w = some out' ∧
        out.1 = out'.1 ∧ out.2.1 = out'.2.1 ∧ out.2.2.1 = out'.2.2.1 ∧
        ("Property shape without sh:path found: " ++ ps.toStr) ∈ out.2.2.2 := by
  have hps : convertPropertyShape env fuel ps =
      some ⟨none, [], false, ["Property shape without sh:path found: " ++ ps.toStr]⟩ := by
    simp only [convertPropertyShape, hnp]
  intro l1
  induction l1 with
  | nil =>
      intro l2 props disc req w out h
      simp only [List.nil_append, propsLoop, hps] at h
      rw [propsLoop_warnings_factor env fuel l2 props disc req
            (w ++ ["Property shape without sh:path found: " ++ ps.toStr])] at h
      cases h0 : propsLoop env fuel l2 props disc req [] with
      | none => rw [h0] at h; simp at h
      | some o0 =>
          rw [h0] at h
          simp only [Option.map_some'] at h
          cases h
          refine ⟨(o0.1, o0.2.1, o0.2.2.1, w ++ o0.2.2.2), ?_, rfl, rfl, rfl, ?_⟩
          · simp only [List.nil_append]
            rw [propsLoop_warnings_factor env fuel l2 props disc req w, h0]; rfl
          · simp
  | cons q l1 ih =>
      intro l2 props disc req w out h
      simp only [List.cons_append, propsLoop] at h ⊢
      cases hc : convertPropertyShape env fuel q with
      | none => simp [hc] at h
      | some r =>
          simp only [hc] at h ⊢
          cases hnm : r.name with
          | none => simp only [hnm] at h ⊢; exact ih l2 _ _ _ _ _ h
          | some nm =>
              simp only [hnm] at h ⊢
              by_cases he : nm = ""
              · rw [if_pos he] at h ⊢; exact ih l2 _ _ _ _ _ h
              · rw [if_neg he] at h ⊢; exact ih l2 _ _ _ _ _ h

/-- C10: a property shape without a truthy `sh:path` converts to no
property at all — `_convert_property_shape` returns name `None`, an empty
schema, not-required, and appends the pathless warning — and in the
enclosing property loop it contributes nothing to the properties map, the
discovered map or the required list, while the warning is carried into the
result and the loop continues over the remaining shapes. -/
theorem pathless_property_skipped
    (env : ConvEnv) (fuel : Nat) (ps : RDFNode)
    (hnp : truthyValue (graphValue env.graph ps SH.path) = none) :
    convertPropertyShape env fuel ps =
      some ⟨none, [], false, ["Property shape without sh:path found: " ++ ps.toStr]⟩ ∧
    (∀ (l1 l2 : List RDFNode) (props disc : JObj) (req w : List String)
      (out : JObj × JObj × List String × List String),
      propsLoop env fuel (l1 ++ ps :: l2) props disc req w = some out →
      ∃ out', propsLoop env fuel (l1 ++ l2) props disc req w = some out' ∧
        out.1 = out'.1 ∧ out.2.1 = out'.2.1 ∧ out.2.2.1 = out'.2.2.1 ∧
        ("Property shape without sh:path found: " ++ ps.toStr) ∈ out.2.2.2) := by
  refine ⟨by simp only [convertPropertyShape, hnp], ?_⟩
  exact propsLoop_skip_pathless env fuel ps hnp

/-- C10 witness: in `gPathless` the pathless shape converts to nothing but
its warning, and the shape's property loop over `[psNoPath, psCode1]`
yields the same properties and required list as the loop over `[psCode1]`
alone, with the pathless warning recorded. -/
theorem pathless_property_skipped_witness :
    convertPropertyShape envPathless 9 psNoPath =
      some ⟨none, [], false, ["Property shape without sh:path found: psNoPath"]⟩ ∧
    ∃ out', propsLoop envPathless 9 ([] ++ [psCode1]) [] [] [] [] = some out' ∧
      (([("code", JVal.obj [("type", JVal.str "string")])],
        [("code", JVal.obj [("type", JVal.str "string")])], ([] : List String),
        ["Property shape without sh:path found: psNoPath"]) :
          JObj × JObj × List String × List String).1 = out'.1 ∧
      (([("code", JVal.obj [("type", JVal.str "string")])],
        [("code", JVal.obj [("type", JVal.str "string")])], ([] : List String),
        ["Property shape without sh:path found: psNoPath"]) :
          JObj × JObj × List String × List String).2.1 = out'.2.1 ∧
      (([("code", JVal.obj [("type", JVal.str "string")])],
        [("code", JVal.obj [("type", JVal.str "string")])], ([] : List String),
        ["Property shape without sh:path found: psNoPath"]) :
          JObj × JObj × List String × List String).2.2.1 = out'.2.2.1 ∧
      ("Property shape without sh:path found: " ++ psNoPath.toStr) ∈
        (([("code", JVal.obj [("type", JVal.str "string")])],
          [("code", JVal.obj [("type", JVal.str "string")])], ([] : List String),
          ["Property shape without sh:path found: psNoPath"]) :
            JObj × JObj × List String × List String).2.2.2 :=
  ⟨(pathless_property_skipped envPathless 9 psNoPath (by decide)).1,
   (pathless_property_skipped envPathless 9 psNoPath (by decide)).2
     [] [psCode1] [] [] [] []
     ([("code", JVal.obj [("type", JVal.str "string")])],
      [("code", JVal.obj [("type", JVal.str "string")])], [],
      ["Property shape without sh:path found: psNoPath"]) rfl⟩

/-! ## C1 -/

/-- C1: a property shape carrying `sh:datatype xsd:integer`,
`sh:minCount 0` and `sh:maxCount 5` (and no other constraint) translates to
exactly `{"type": "array", "items": {"type": "integer"}, "maxItems": 5}` —
in particular the schema carries no `minItems` key, because rdflib's
value-based literal truthiness makes `_get_literal_value` treat the
`sh:minCount 0` literal as absent. -/
theorem intProp_minCount0_maxCount5_array_schema
    (env : ConvEnv) (fuel : Nat) (ps p : RDFNode)
    (hpath : graphValue env.graph ps SH.path = some p) (hp : p.truthy = true)
    (hdesc : getLiteralValue env.graph ps SH.description = none)
    (hmsg : getLiteralValue env.graph ps SH.message = none)
    (hhv : graphValue env.graph ps SH.hasValue = none)
    (hor : graphValue env.graph ps SH.orP = none)
    (hdt : graphValue env.graph ps SH.datatype = some XSD.integer)
    (hmin : graphValue env.graph ps SH.minCount = some (.lit (.int 0)))
    (hmax : graphValue env.graph ps SH.maxCount = some (.lit (.int 5)))
    (hin : graphObjects env.graph ps SH.inP = [])
    (hb1 : getLiteralValue env.graph ps SH.minInclusive = none)
    (hb2 : getLiteralValue env.graph ps SH.maxInclusive = none)
    (hb3 : getLiteralValue env.graph ps SH.minExclusive = none)
    (hb4 : getLiteralValue env.graph ps SH.maxExclusive = none)
    (hb5 : getLiteralValue env.graph ps SH.minLength = none)
    (hb6 : getLiteralValue env.graph ps SH.maxLength = none)
    (hb7 : getLiteralValue env.graph ps SH.pattern = none)
    (hx : graphObjects env.graph ps SH.xone = [])
    (ha : graphObjects env.graph ps SH.andP = [])
    (hs : graphObjects env.graph ps SH.sparql = []) :
    convertPropertyShape env fuel ps =
      some ⟨some (getPropertyName env p),
            [("type", .str "array"), ("items", .obj [("type", .str "integer")]),
             ("maxItems", .int 5)], false, []⟩ := by
  have h1 : truthyValue (graphValue env.graph ps SH.path) = some p := by
    simp only [hpath, truthyValue, hp, if_true]
  have h_d0 : descriptionInit env.graph ps = [] := by
    unfold descriptionInit; rw [hdesc, hmsg]
  have hor' : truthyValue (graphValue env.graph ps SH.orP) = none := by rw [hor]; rfl
  have hdt' : truthyValue (graphValue env.graph ps SH.datatype) = some XSD.integer := by
    rw [hdt]; rfl
  have h_ts : typeStage env fuel ps (getPropertyName env p) [] =
      some ([("type", .str "integer")], []) := by
    simp only [typeStage, hhv, hor', hdt']; rfl
  have hmin' : getLiteralValue env.graph ps SH.minCount = none := by
    unfold getLiteralValue; rw [hmin]; rfl
  have hmax' : getLiteralValue env.graph ps SH.maxCount = some "5" := by
    unfold getLiteralValue; rw [hmax]; rfl
  have h_rr : refRewriteStage [("type", JVal.str "integer")] = [("type", JVal.str "integer")] := rfl
  have h_cs : cardinalityStage env.graph ps [("type", JVal.str "integer")] =
      some ([("type", .str "array"), ("items", .obj [("type", .str "integer")]),
             ("maxItems", .int 5)], false) := by
    unfold cardinalityStage; rw [hmin', hmax']; rfl
  have h_in : inStage env.graph fuel ps
      [("type", .str "array"), ("items", .obj [("type", .str "integer")]),
       ("maxItems", .int 5)] =
      some [("type", .str "array"), ("items", .obj [("type", .str "integer")]),
            ("maxItems", .int 5)] := by
    unfold inStage; rw [hin]
  have h_bs : boundsStage env.graph ps
      [("type", .str "array"), ("items", .obj [("type", .str "integer")]),
       ("maxItems", .int 5)] =
      some [("type", .str "array"), ("items", .obj [("type", .str "integer")]),
            ("maxItems", .int 5)] := by
    simp only [boundsStage, boundsApply, setFloatKey, setIntKey, setPatternKey,
               hb1, hb2, hb3, hb4, hb5, hb6, hb7, Option.some_bind]; rfl
  have h_un : unconvertibleStage env.graph ps (getPropertyName env p)
      [("type", .str "array"), ("items", .obj [("type", .str "integer")]),
       ("maxItems", .int 5)] =
      ([("type", .str "array"), ("items", .obj [("type", .str "integer")]),
        ("maxItems", .int 5)], []) := by
    unfold unconvertibleStage; rw [hx, ha, hs]; rfl
  simp only [convertPropertyShape, h1, h_d0, h_ts, h_rr, h_cs, h_in, h_bs, h_un,
             List.nil_append]

/-- C1 witness: the scenario graph `gQty` evaluates as the theorem states. -/
theorem intProp_minCount0_maxCount5_array_schema_witness :
    convertPropertyShape envQty 9 psQty =
      some ⟨some "qty",
            [("type", .str "array"), ("items", .obj [("type", .str "integer")]),
             ("maxItems", .int 5)], false, []⟩ :=
  intProp_minCount0_maxCount5_array_schema envQty 9 psQty exQty
    (by decide) (by decide) (by decide) (by decide) (by decide) (by decide)
    (by decide) (by decide) (by decide) (by decide) (by decide) (by decide)
    (by decide) (by decide) (by decide) (by decide) (by decide) (by decide)
    (by decide) (by decide)

/-! ## C2: naming collisions -/

/-- C2 counterexample: under the `local` naming strategy the two distinct
IRIs `http://ex1.org/code` and `http://ex2.org/code` receive the same term
`code`, and in the generated definition a single `code` property remains,
holding the second shape's `integer` schema — the first (`string`) schema
is silently shadowed, with no diagnostic recorded. -/
theorem naming_collision_counterexample :
    exCode1 ≠ exCode2 ∧
    getPropertyName envColl exCode1 = getPropertyName envColl exCode2 ∧
    convertNodeShape envColl 9 shapeColl =
      some ⟨"ShapeA",
        [("type", .str "object"),
         ("$comment", .str "Generated from SHACL shape http://example.org/ShapeA"),
         ("title", .str "ShapeA"),
         ("properties", .obj [("code", .obj [("type", .str "integer")])])],
        []⟩ :=
  ⟨by decide, by decide, rfl⟩

/-- C2 amended: under the `local` naming strategy the chosen term is exactly
the IRI's local name.  Hence distinct IRIs with distinct local names do get
distinct terms, but two distinct IRIs reducing to the same local name
collapse to one term, and the later property shape silently overwrites the
earlier one in the properties map (see the counterexample); the code
performs no collision resolution and records no diagnostic. -/
theorem local_naming_term_is_local_name
    (env : ConvEnv) (hn : env.naming = .localNames) (p : RDFNode) :
    getPropertyName env p = getLocalName p.toStr := by
  simp only [getPropertyName, hn]

/-- C2 witness for the amended theorem at a concrete IRI. -/
theorem local_naming_term_is_local_name_witness :
    getPropertyName envColl exCode1 = getLocalName exCode1.toStr :=
  local_naming_term_is_local_name envColl rfl exCode1

/-! ## C3: RDF list traversal termination -/

lemma cycle_walk_none (fuel : Nat) :
    extractListValuesF gCycle fuel listA = none ∧
    extractListValuesF gCycle fuel listB = none := by
  induction fuel with
  | zero => exact ⟨rfl, rfl⟩
  | succ n ih =>
      refine ⟨?_, ?_⟩
      · rw [show extractListValuesF gCycle (n + 1) listA =
              (extractListValuesF gCycle n listB).map (fun l => [JVal.str "x"] ++ l) from rfl,
            ih.2]
        rfl
      · rw [show extractListValuesF gCycle (n + 1) listB =
              (extractListValuesF gCycle n listA).map (fun l => [JVal.str "y"] ++ l) from rfl,
            ih.1]
        rfl

/-- C3 counterexample: the unguarded `while current != RDF.nil` walk never
terminates on the cyclic `rdf:rest` chain of `gCycle` — for every number of
iterations it is still running, so the Python translator hangs. -/
theorem rdf_list_walk_cycle_counterexample :
    ¬ listWalkTerminates gCycle listA := by
  rintro ⟨fuel, h⟩
  rw [(cycle_walk_none fuel).1] at h
  simp at h

lemma walk_isSome_of_chain (g : Graph) :
    ∀ (chain : List RDFNode) (start : RDFNode),
      isRestChain g (start :: chain) = true →
      (extractListValuesF g (chain.length + 1) start).isSome = true := by
  intro chain
  induction chain with
  | nil =>
      intro start h
      by_cases hn : start = RDF.nil
      · subst hn; simp [extractListValuesF]
      · simp only [isRestChain, decide_eq_true_eq, Bool.or_eq_true] at h
        rcases h with h | h
        · exact absurd h hn
        · unfold extractListValuesF
          rw [if_neg hn]
          unfold restStep at h
          cases hr : graphValue g start RDF.rest with
          | none => simp
          | some r =>
              rw [hr] at h
              cases ht : r.truthy with
              | true => simp [ht] at h
              | false => simp [ht]
  | cons c' rest ih =>
      intro start h
      simp only [isRestChain, decide_eq_true_eq, Bool.and_eq_true] at h
      obtain ⟨⟨hn, hstep⟩, hchain⟩ := h
      unfold extractListValuesF
      rw [if_neg hn]
      unfold restStep at hstep
      cases hr : graphValue g start RDF.rest with
      | none => rw [hr] at hstep; exact absurd hstep (by simp)
      | some r =>
          rw [hr] at hstep
          cases ht : r.truthy with
          | false => simp [ht] at hstep
          | true =>
              have hrc : r = c' := by simpa [ht] using hstep
              subst hrc
              have hrec := ih r hchain
              simp [ht, List.length_cons, hrec]

/-- C3 amended: the traversal terminates exactly on well-founded rest
chains — any list head whose `rdf:rest` successors reach `rdf:nil` or a
rest-less node in finitely many steps (in particular every properly
nil-terminated list); the Python walk carries no cycle or length guard, and
a cyclic `rdf:rest` chain makes it hang (see the counterexample). -/
theorem rdf_list_walk_terminates_on_wellformed_chain
    (g : Graph) (start : RDFNode) (chain : List RDFNode)
    (hc : isRestChain g (start :: chain) = true) :
    listWalkTerminates g start :=
  ⟨chain.length + 1, walk_isSome_of_chain g chain start hc⟩

/-- C3 witness: the walk terminates on the well-formed list of `gList2`. -/
theorem rdf_list_walk_terminates_on_wellformed_chain_witness :
    listWalkTerminates gList2 listA :=
  rdf_list_walk_terminates_on_wellformed_chain gList2 listA [listB, RDF.nil] (by decide)

/-! ## C4: determinism -/

/-- C4: the conversion is deterministic — the embedding is a pure function
of the parsed inputs (Python 3.7+ dicts iterate in insertion order, which
the graph fixes), so two runs over the same input serialize byte-identically
— and the term chosen for an IRI depends only on the naming strategy, the
graph's namespace bindings and the context term table: two environments
agreeing on those three fields (with arbitrary graphs and class maps)
choose the same term for every IRI. -/
theorem conversion_deterministic_and_naming_pure
    (inp : ConvInput) (fuel : Nat) (e1 e2 : ConvEnv) (p : RDFNode)
    (hn : e1.naming = e2.naming) (hns : e1.namespaces = e2.namespaces)
    (hit : e1.iriToTerm = e2.iriToTerm) :
    (convert inp fuel).map (fun r => serializeJVal r.1) =
      (convert inp fuel).map (fun r => serializeJVal r.1) ∧
    getPropertyName e1 p = getPropertyName e2 p := by
  refine ⟨rfl, ?_⟩
  unfold getPropertyName
  rw [hn, hns, hit]

/-- C4 witness: two environments over different graphs (`gColl` vs `gQty`)
with the same naming inputs agree on the term for `ex1:code`. -/
theorem conversion_deterministic_and_naming_pure_witness :
    (convert ⟨gQty, .localNames, [], []⟩ 9).map (fun r => serializeJVal r.1) =
      (convert ⟨gQty, .localNames, [], []⟩ 9).map (fun r => serializeJVal r.1) ∧
    getPropertyName envColl exCode1 = getPropertyName envQty exCode1 :=
  conversion_deterministic_and_naming_pure ⟨gQty, .localNames, [], []⟩ 9
    envColl envQty exCode1 rfl rfl rfl

end ShaclToJsonSchema
